import Mathlib

/-!
Verification development for the terminal checklist control implemented in
src/tui_checklist.py.  The Python source is shallowly embedded below: Python
ints are modelled as Lean Int, Python lists as Lean lists, the blocking input
stream as an explicit list of pending key events, and the interactive session
loop as a fuelled state-transition function.  Terminal output (ANSI writes)
carries no state relevant to the verified claims and is not modelled; the
only observable effects of the error prompt are modelled: it consumes one key
and cancels the session when that key is Escape or the interrupt byte.
Python float arithmetic (used only for the page-scroll selection ratio) is
modelled exactly as IEEE-754 binary64: values carry a 53-bit significand and
an exponent, and every operation rounds the exact result to nearest, ties to
even, as the hardware does.  The normal finite range suffices, since every
quantity the loop computes (ratios of window offsets and their products with
window spans) lies far inside it.
-/

/-- A Python runtime value as it may appear in item specifications and tags:
the source annotates tags as Any and disambiguates tuple elements with
isinstance checks on bool and str. -/
inductive PyVal where
  | none
  | bool (b : Bool)
  | int (n : Int)
  | str (s : String)
deriving DecidableEq

/-- Python str.split with a newline separator, on the character list:
"".split gives [""], a trailing newline yields a trailing empty line. -/
def splitLines : List Char → List (List Char)
  | [] => [[]]
  | c :: rest =>
    if c = '\n' then [] :: splitLines rest
    else
      match splitLines rest with
      | [] => [[c]]
      | l :: ls => (c :: l) :: ls

/-- Python label.split of the source, lifted to String. -/
def pySplitNl (s : String) : List String :=
  (splitLines s.data).map (fun cs => String.mk cs)

/-- ChecklistItem of the source: label, checked flag and opaque tag.
label_lines is derived (label split on newlines), height is its length. -/
structure ChecklistItem where
  label : String
  checked : Bool
  tag : PyVal
deriving DecidableEq

/-- label_lines field computed in ChecklistItem.post_init of the source. -/
def ChecklistItem.label_lines (it : ChecklistItem) : List String :=
  pySplitNl it.label

/-- ChecklistItem.height of the source: the number of label lines. -/
def ChecklistItem.height (it : ChecklistItem) : Int :=
  (it.label_lines.length : Int)

/-- ChecklistItem.toggle of the source with no explicit value: flips checked. -/
def ChecklistItem.toggle (it : ChecklistItem) : ChecklistItem :=
  { it with checked := !it.checked }

/-- A raw item specification as accepted by tui_checklist: a ChecklistItem,
a bare string, a tuple (modelled as the list of its elements), or any other
Python object (constructor other). -/
inductive RawItem where
  | item (it : ChecklistItem)
  | str (s : String)
  | tuple (elems : List PyVal)
  | other
deriving DecidableEq

/-- make_checklist_item of the source: converts a raw specification to a
ChecklistItem, raising TypeError (modelled as Except.error) when the shape is
not recognized.  A tuple is accepted when its first element is a string and
it has exactly two elements (second bool gives checked, anything else gives
the tag) or exactly three elements with a bool second element. -/
def _make_checklist_item : RawItem → Except String ChecklistItem
  | RawItem.item it => Except.ok it
  | RawItem.str s => Except.ok { label := s, checked := false, tag := PyVal.none }
  | RawItem.tuple (PyVal.str lbl :: e1 :: rest) =>
    match rest with
    | [] =>
      match e1 with
      | PyVal.bool b => Except.ok { label := lbl, checked := b, tag := PyVal.none }
      | _ => Except.ok { label := lbl, checked := false, tag := e1 }
    | [e2] =>
      match e1 with
      | PyVal.bool b => Except.ok { label := lbl, checked := b, tag := e2 }
      | _ => Except.error "TypeError"
    | _ => Except.error "TypeError"
  | RawItem.tuple _ => Except.error "TypeError"
  | RawItem.other => Except.error "TypeError"

/-- ItemRange of the source: an inclusive index range with its occupied
height in rows. -/
structure _ItemRange where
  first : Int
  last : Int
  height : Int
deriving DecidableEq

/-- The len dunder of ItemRange in the source: last - first + 1. -/
def _ItemRange.pyLen (r : _ItemRange) : Int :=
  r.last - r.first + 1

/-- Python truthiness of an ItemRange: a dataclass with a len dunder is falsy
exactly when its length is zero. -/
def _ItemRange.isTruthy (r : _ItemRange) : Bool :=
  r.pyLen != 0

/-- Python truthiness of an Optional ItemRange: None is falsy, otherwise the
range truthiness applies. -/
def optTruthy : Option _ItemRange → Bool
  | Option.none => false
  | Option.some r => r.isTruthy

/-- Ascending consecutive integers a, a+1, ..., of the given count. -/
def intRangeAux (a : Int) : Nat → List Int
  | 0 => []
  | n+1 => a :: intRangeAux (a + 1) n

/-- Python range(a, b): the integers from a up to b-1. -/
def intRange (a b : Int) : List Int :=
  intRangeAux a (b - a).toNat

/-- Descending consecutive integers a, a-1, ..., of the given count. -/
def intRangeDescAux (a : Int) : Nat → List Int
  | 0 => []
  | n+1 => a :: intRangeDescAux (a - 1) n

/-- Python range(a, b, -1): the integers from a down to b+1. -/
def intRangeDesc (a b : Int) : List Int :=
  intRangeDescAux a (a - b).toNat

/-- Python sequence indexing xs[i] on a list of Ints, including the negative
index convention.  Out-of-range access raises IndexError in Python; every
access in the verified paths is guarded in range, so the default value 0 is
never produced there. -/
def pyIndex (xs : List Int) (i : Int) : Int :=
  if 0 ≤ i then xs.getD i.toNat 0 else xs.getD ((xs.length : Int) + i).toNat 0

/-- The heights of the current items, the only item data the scroll engine
reads (items[i].height in the source). -/
def heightsOf (items : List ChecklistItem) : List Int :=
  items.map ChecklistItem.height

/-- The accumulation loop shared by get_visible_range and the growth loop of
scroll_down in the source: starting from accumulator (visible_last,
visible_height), for each index i in turn add margin plus the height of item
i, stopping as soon as the next height would exceed usable; otherwise record
i as visible_last. -/
def gvrLoop (heights : List Int) (m usable : Int) : List Int → Int × Int → Int × Int
  | [], acc => acc
  | i :: rest, (vlast, vheight) =>
    let next := vheight + m + pyIndex heights i
    if usable < next then (vlast, vheight)
    else gvrLoop heights m usable rest (i, next)

/-- get_visible_range of the source: scan forward from position (backward =
false, the to=False default of the source) or backward from position
(backward = true, to=True in the source), starting the accumulator at
(-1, -margin), and return the accumulated range, or none when not even the
first item fitted (visible_last still -1). -/
def get_visible_range (heights : List Int) (m usable : Int) (position : Int) (backward : Bool) :
    Option _ItemRange :=
  let idxs := if backward then intRangeDesc position (-1) else intRange position (heights.length : Int)
  let p := gvrLoop heights m usable idxs (-1, -m)
  if p.1 ≠ -1 then
    if backward then Option.some { first := p.1, last := position, height := p.2 }
    else Option.some { first := position, last := p.1, height := p.2 }
  else Option.none

/-- The exact number of rows occupied by the items first..last inclusive:
the sum of their heights plus one margin per item after the first.  For
last = first - 1 the value is -margin, matching the accumulator start of the
source loops. -/
def rangeHeight (heights : List Int) (m first last : Int) : Int :=
  ((intRange first (last + 1)).map (pyIndex heights)).sum + m * (last - first)

/-- One decoded key, as the event loop receives it from the platform input
handler: a string (named event or passed-through character), raw bytes
(Windows passthrough), an unmapped sequence (Python None), or the interrupt
raised at decode time by the Ctrl+C byte. -/
inductive SessKey where
  | str (s : String)
  | bytes (bs : List Nat)
  | unknownKey
  | ctrlC
deriving DecidableEq

/-- The final result of one session of the event loop.  stuck marks an
exhausted input stream (the Python loop would block forever on read). -/
inductive Outcome where
  | confirmed (tags : List PyVal)
  | cancelled
  | crashed (msg : String)
  | stuck
deriving DecidableEq

/-- Result of the viewport-too-small prompt of the source: it blocks reading
one key; Escape (and the interrupt byte) cancel the session, any other key
resumes. -/
inductive ErrResult where
  | ok (keys : List SessKey)
  | cancelled
  | stuck
deriving DecidableEq

/-- render_error of the source, restricted to its state effects: consume one
key and cancel on ESCAPE or interrupt. -/
def render_error (keys : List SessKey) : ErrResult :=
  match keys with
  | [] => ErrResult.stuck
  | k :: rest =>
    match k with
    | SessKey.ctrlC => ErrResult.cancelled
    | SessKey.str s => if s = "ESCAPE" then ErrResult.cancelled else ErrResult.ok rest
    | _ => ErrResult.ok rest

/-- Result of one scroll helper of the source: the new visible range (and the
remaining input after any error prompts), or a session-terminating event. -/
inductive SubResult where
  | ok (vr : Option _ItemRange) (keys : List SessKey)
  | cancelled
  | stuck
  | crashed (msg : String)
deriving DecidableEq

/-- scroll_to of the source: raises ValueError outside 0..scroll_max,
otherwise recomputes the visible range by a forward scan and shows the
too-small prompt when the result is falsy. -/
def scroll_to (heights : List Int) (m usable scroll_max : Int) (new_position : Int)
    (keys : List SessKey) : SubResult :=
  if new_position < 0 ∨ scroll_max < new_position then SubResult.crashed "ValueError"
  else
    let vr := get_visible_range heights m usable new_position false
    if optTruthy vr then SubResult.ok vr keys
    else
      match render_error keys with
      | ErrResult.ok keys2 => SubResult.ok vr keys2
      | ErrResult.cancelled => SubResult.cancelled
      | ErrResult.stuck => SubResult.stuck

/-- The trimming loop shared by scroll_up and scroll_down in the source:
while the range is nonempty (mirrored by idxs being nonempty) and the height
exceeds usable, remove the item at the boundary index i (the current counter
value) and move the counter by step (-1 trims the tail, +1 trims the head). -/
def stripLoop (heights : List Int) (m usable : Int) (idxs : List Int) (ctr h step : Int) :
    Int × Int :=
  match idxs with
  | [] => (ctr, h)
  | i :: rest =>
    if usable < h then stripLoop heights m usable rest (ctr + step) (h - (m + pyIndex heights i)) step
    else (ctr, h)

/-- The tail of scroll_up in the source after the trimming loop: show the
too-small prompt when the trimmed range is falsy, but assign it as the
visible range regardless. -/
def scrollUpFinish (vfirst : Int) (p : Int × Int) (keys : List SessKey) : SubResult :=
  let vr : _ItemRange := { first := vfirst, last := p.1, height := p.2 }
  if vr.isTruthy then SubResult.ok (Option.some vr) keys
  else
    match render_error keys with
    | ErrResult.ok keys2 => SubResult.ok (Option.some vr) keys2
    | ErrResult.cancelled => SubResult.cancelled
    | ErrResult.stuck => SubResult.stuck

/-- scroll_up of the source: wrap to scroll_max when already at the top;
otherwise extend the range upward by one item, trim items from the bottom
while the height exceeds usable (showing the too-small prompt if it still
does not fit), and assign the resulting range. -/
def scroll_up (heights : List Int) (m usable scroll_max : Int) (r : _ItemRange)
    (keys : List SessKey) : SubResult :=
  if r.first = 0 then scroll_to heights m usable scroll_max scroll_max keys
  else if r.first - 1 < -(heights.length : Int) ∨ (heights.length : Int) ≤ r.first - 1 then
    SubResult.crashed "IndexError"
  else
    let vfirst := r.first - 1
    let start_h := r.height + m + pyIndex heights (r.first - 1)
    let p := stripLoop heights m usable (intRangeDesc r.last (vfirst - 1)) r.last start_h (-1)
    if usable < p.2 then
      match render_error keys with
      | ErrResult.ok keys2 => scrollUpFinish vfirst p keys2
      | ErrResult.cancelled => SubResult.cancelled
      | ErrResult.stuck => SubResult.stuck
    else scrollUpFinish vfirst p keys

/-- The tail of scroll_down in the source after the trimming loop: try to
grow the range at the bottom with further items that fit, show the too-small
prompt when the result is falsy, and assign it regardless. -/
def scrollDownFinish (heights : List Int) (m usable vlast : Int) (p : Int × Int)
    (keys : List SessKey) : SubResult :=
  let g := gvrLoop heights m usable (intRange (vlast + 1) (heights.length : Int)) (vlast, p.2)
  let vr : _ItemRange := { first := p.1, last := g.1, height := g.2 }
  if vr.isTruthy then SubResult.ok (Option.some vr) keys
  else
    match render_error keys with
    | ErrResult.ok keys2 => SubResult.ok (Option.some vr) keys2
    | ErrResult.cancelled => SubResult.cancelled
    | ErrResult.stuck => SubResult.stuck

/-- scroll_down of the source: wrap to 0 when already at scroll_max;
otherwise extend the range downward by one item (indexing items[last+1],
which raises IndexError out of range), trim items from the top while the
height exceeds usable, optionally grow at the bottom, and assign the result. -/
def scroll_down (heights : List Int) (m usable scroll_max : Int) (r : _ItemRange)
    (keys : List SessKey) : SubResult :=
  if r.first = scroll_max then scroll_to heights m usable scroll_max 0 keys
  else if r.last + 1 < -(heights.length : Int) ∨ (heights.length : Int) ≤ r.last + 1 then
    SubResult.crashed "IndexError"
  else
    let vlast := r.last + 1
    let start_h := r.height + m + pyIndex heights (r.last + 1)
    let p := stripLoop heights m usable (intRange r.first (vlast + 1)) r.first start_h 1
    if usable < p.2 then
      match render_error keys with
      | ErrResult.ok keys2 => scrollDownFinish heights m usable vlast p keys2
      | ErrResult.cancelled => SubResult.cancelled
      | ErrResult.stuck => SubResult.stuck
    else scrollDownFinish heights m usable vlast p keys

/-- The mutable session state owned by the event loop of tui_checklist. -/
structure LoopState where
  terminal_width : Int
  terminal_height : Int
  usable_height : Int
  visible_range : Option _ItemRange
  scroll_max : Int
  current_position : Int
  items : List ChecklistItem
deriving DecidableEq

/-- The fixed session parameters: the actual terminal geometry reported by
the OS (constant during a modelled session) and the arguments of
tui_checklist that the loop reads. -/
structure Config where
  realW : Int
  realH : Int
  header_lines : List String
  item_margin : Int
  truncate_lines : Bool
deriving DecidableEq

/-- Result of one pass of the while-True body: either the loop continues
with a new state and remaining input, or the session ends. -/
inductive IterResult where
  | next (st : LoopState) (keys : List SessKey)
  | done (o : Outcome)
deriving DecidableEq

/-- Python max over a list of naturals; the source only applies it to
nonempty generators (max of an empty one raises ValueError, handled at the
call site). -/
def listMaxNat : List Nat → Nat
  | [] => 0
  | x :: xs => max x (listMaxNat xs)

/-- The condition of line 542 of the source: rescroll when the visible range
is falsy or the cursor lies outside it.  Short-circuit evaluation means the
fields are only read when the range is truthy. -/
def needScroll (vr : Option _ItemRange) (cp : Int) : Bool :=
  match vr with
  | Option.none => true
  | Option.some r => !r.isTruthy || decide (cp < r.first) || decide (r.last < cp)

/-- Show the too-small prompt and continue the loop with the state unchanged
(the continue statements after render_viewport_too_small_error). -/
def errContinue (st : LoopState) (keys : List SessKey) : IterResult :=
  match render_error keys with
  | ErrResult.ok keys2 => IterResult.next st keys2
  | ErrResult.cancelled => IterResult.done Outcome.cancelled
  | ErrResult.stuck => IterResult.done Outcome.stuck

/-- An IEEE-754 binary64 value (a Python float) in the normal finite range:
zero, or a sign with a significand m, 2^52 <= m < 2^53, and an exponent, the
value being plus or minus m * 2^e.  Subnormals, infinities and NaN are
outside the range any session computation reaches and are not represented. -/
inductive PyFloat where
  | zero
  | finite (neg : Bool) (m : Int) (e : Int)
deriving DecidableEq

/-- Shift the positive fraction num/den (tracked with binary exponent e, the
represented value being num/den * 2^e) until 2^52 <= num/den < 2^53, by
doubling num or den.  The fuel of 600 covers every fraction with numerator
and denominator below 2^290, far beyond any value arising here. -/
def normShift : Nat → Int → Int → Int → Int × Int × Int
  | 0, num, den, e => (num, den, e)
  | f+1, num, den, e =>
    if num < 4503599627370496 * den then normShift f (num * 2) den (e - 1)
    else if 9007199254740992 * den ≤ num then normShift f num (den * 2) (e + 1)
    else (num, den, e)

/-- Round the exact value (plus or minus num/den * 2^e, with num, den > 0) to
the nearest binary64, ties to even: normalize the significand window, take
the integer quotient, and round on the remainder.  A carry to 2^53 renormalizes. -/
def roundFin (neg : Bool) (num den e : Int) : PyFloat :=
  let t := normShift 600 num den e
  let q := t.1 / t.2.1
  let r := t.1 % t.2.1
  let m := if t.2.1 < 2 * r then q + 1
           else if 2 * r < t.2.1 then q
           else if q % 2 = 0 then q else q + 1
  if m = 9007199254740992 then PyFloat.finite neg 4503599627370496 (t.2.2 + 1)
  else PyFloat.finite neg m t.2.2

/-- Python true division of two ints, a / b, as the correctly rounded
binary64 quotient.  The b = 0 case (ZeroDivisionError in Python) is
unreachable: the only division in the source is guarded by a window length
greater than one. -/
def pyDivInt (a b : Int) : PyFloat :=
  if a = 0 ∨ b = 0 then PyFloat.zero
  else roundFin (decide (a < 0) != decide (b < 0)) (a.natAbs : Int) (b.natAbs : Int) 0

/-- Python float-times-int multiplication: the int converts exactly to
binary64 in the reachable magnitude range and the product is correctly
rounded. -/
def pyMulIntFloat (f : PyFloat) (s : Int) : PyFloat :=
  match f with
  | PyFloat.zero => PyFloat.zero
  | PyFloat.finite neg m e =>
    if s = 0 then PyFloat.zero
    else roundFin (neg != decide (s < 0)) (m * (s.natAbs : Int)) 1 e

/-- Python int() on a float: truncation toward zero (floor of the positive
magnitude, then the sign). -/
def pyTrunc (f : PyFloat) : Int :=
  match f with
  | PyFloat.zero => 0
  | PyFloat.finite neg m e =>
    let a := if 0 ≤ e then m * (2 : Int) ^ e.toNat else m / (2 : Int) ^ (-e).toNat
    if neg then -a else a

/-- selection_ratio of the source (lines 612-614): the float quotient
(current - first) / (last - first) when the window holds more than one item,
else the float 0.0. -/
def selection_ratio (cp first last : Int) : PyFloat :=
  if 1 < last - first + 1 then pyDivInt (cp - first) (last - first)
  else PyFloat.zero

/-- int(selection_ratio * s) of the source (line 622): binary64
multiplication followed by int() truncation toward zero. -/
def ratioMulTrunc (f : PyFloat) (s : Int) : Int :=
  pyTrunc (pyMulIntFloat f s)

/-- items[i].toggle() of the source: flip the checked flag at Python index i,
returning none for an out-of-range index (IndexError). -/
def toggleAt (items : List ChecklistItem) (i : Int) : Option (List ChecklistItem) :=
  if 0 ≤ i ∧ i < (items.length : Int) then
    Option.some (items.enum.map (fun p => if (p.1 : Int) = i then p.2.toggle else p.2))
  else if -(items.length : Int) ≤ i ∧ i < 0 then
    Option.some (items.enum.map (fun p => if (p.1 : Int) = (items.length : Int) + i then p.2.toggle else p.2))
  else Option.none

/-- Replace the visible range and cursor of a state in one step. -/
def withVrCp (st : LoopState) (vr : Option _ItemRange) (cp : Int) : LoopState :=
  { terminal_width := st.terminal_width, terminal_height := st.terminal_height,
    usable_height := st.usable_height, visible_range := vr, scroll_max := st.scroll_max,
    current_position := cp, items := st.items }

/-- The confirmed result of the source (line 635): the tags of the checked
items in list order. -/
def confirmTags (items : List ChecklistItem) : List PyVal :=
  (items.filter (fun it => it.checked)).map (fun it => it.tag)

/-- The shared tail of the PGUP/PGDN branch (lines 612-622): remember the
selection ratio, scroll to the new offset, and re-place the cursor at the
same relative position of the new window, truncated toward the window start. -/
def pageMove (cfg : Config) (st : LoopState) (r : _ItemRange) (new_scroll : Int)
    (keys : List SessKey) : IterResult :=
  let heights := heightsOf st.items
  let ratio := selection_ratio st.current_position r.first r.last
  match scroll_to heights cfg.item_margin st.usable_height st.scroll_max new_scroll keys with
  | SubResult.crashed e => IterResult.done (Outcome.crashed e)
  | SubResult.cancelled => IterResult.done Outcome.cancelled
  | SubResult.stuck => IterResult.done Outcome.stuck
  | SubResult.ok vr keys2 =>
    if ¬ optTruthy vr then
      match render_error keys2 with
      | ErrResult.ok keys3 =>
        IterResult.next (withVrCp st vr new_scroll) keys3
      | ErrResult.cancelled => IterResult.done Outcome.cancelled
      | ErrResult.stuck => IterResult.done Outcome.stuck
    else
      match vr with
      | Option.none => IterResult.done (Outcome.crashed "AttributeError")
      | Option.some r2 =>
        IterResult.next (withVrCp st vr (r2.first + ratioMulTrunc ratio (r2.last - r2.first))) keys2

/-- The PGUP/PGDN branch of the dispatch (lines 590-622). -/
def pageKey (cfg : Config) (st : LoopState) (s : String) (keys : List SessKey) : IterResult :=
  let heights := heightsOf st.items
  let len : Int := (st.items.length : Int)
  if ¬ optTruthy st.visible_range then IterResult.next st keys
  else
    match st.visible_range with
    | Option.none => IterResult.done (Outcome.crashed "AttributeError")
    | Option.some r =>
      if s = "PGDN" then
        if r.first = st.scroll_max then
          IterResult.next { st with current_position := len - 1 } keys
        else pageMove cfg st r (min st.scroll_max (r.last + 1)) keys
      else
        if r.first = 0 then
          IterResult.next { st with current_position := 0 } keys
        else
          match get_visible_range heights cfg.item_margin st.usable_height (r.first - 1) true with
          | Option.none => errContinue st keys
          | Option.some nvr =>
            if nvr.isTruthy then pageMove cfg st r nvr.first keys
            else errContinue st keys

/-- The input dispatch of the event loop (lines 573-628): one decoded key is
applied to the session state.  A key matching no branch (including the
PAGE_UP/PAGE_DOWN strings emitted by the Unix decoder, passed-through
characters, raw Windows bytes, and None) leaves the state unchanged. -/
def dispatch (cfg : Config) (st : LoopState) (k : SessKey) (keys : List SessKey) : IterResult :=
  let heights := heightsOf st.items
  let len : Int := (st.items.length : Int)
  match k with
  | SessKey.ctrlC => IterResult.done Outcome.cancelled
  | SessKey.bytes _ => IterResult.next st keys
  | SessKey.unknownKey => IterResult.next st keys
  | SessKey.str s =>
    if s = "UP" then
      match st.visible_range with
      | Option.none => IterResult.done (Outcome.crashed "AttributeError")
      | Option.some r =>
        if st.current_position = r.first then
          match scroll_up heights cfg.item_margin st.usable_height st.scroll_max r keys with
          | SubResult.ok vr keys2 =>
            if len = 0 then IterResult.done (Outcome.crashed "ZeroDivisionError")
            else IterResult.next (withVrCp st vr ((st.current_position - 1) % len)) keys2
          | SubResult.cancelled => IterResult.done Outcome.cancelled
          | SubResult.stuck => IterResult.done Outcome.stuck
          | SubResult.crashed e => IterResult.done (Outcome.crashed e)
        else if len = 0 then IterResult.done (Outcome.crashed "ZeroDivisionError")
        else IterResult.next { st with current_position := (st.current_position - 1) % len } keys
    else if s = "DOWN" then
      match st.visible_range with
      | Option.none => IterResult.done (Outcome.crashed "AttributeError")
      | Option.some r =>
        if st.current_position = r.last then
          match scroll_down heights cfg.item_margin st.usable_height st.scroll_max r keys with
          | SubResult.ok vr keys2 =>
            if len = 0 then IterResult.done (Outcome.crashed "ZeroDivisionError")
            else IterResult.next (withVrCp st vr ((st.current_position + 1) % len)) keys2
          | SubResult.cancelled => IterResult.done Outcome.cancelled
          | SubResult.stuck => IterResult.done Outcome.stuck
          | SubResult.crashed e => IterResult.done (Outcome.crashed e)
        else if len = 0 then IterResult.done (Outcome.crashed "ZeroDivisionError")
        else IterResult.next { st with current_position := (st.current_position + 1) % len } keys
    else if s = "HOME" then
      match scroll_to heights cfg.item_margin st.usable_height st.scroll_max 0 keys with
      | SubResult.ok vr keys2 =>
        IterResult.next (withVrCp st vr 0) keys2
      | SubResult.cancelled => IterResult.done Outcome.cancelled
      | SubResult.stuck => IterResult.done Outcome.stuck
      | SubResult.crashed e => IterResult.done (Outcome.crashed e)
    else if s = "END" then
      match scroll_to heights cfg.item_margin st.usable_height st.scroll_max st.scroll_max keys with
      | SubResult.ok vr keys2 =>
        IterResult.next (withVrCp st vr (len - 1)) keys2
      | SubResult.cancelled => IterResult.done Outcome.cancelled
      | SubResult.stuck => IterResult.done Outcome.stuck
      | SubResult.crashed e => IterResult.done (Outcome.crashed e)
    else if s = "PGUP" ∨ s = "PGDN" then pageKey cfg st s keys
    else if s = "SPACE" then
      match toggleAt st.items st.current_position with
      | Option.none => IterResult.done (Outcome.crashed "IndexError")
      | Option.some items2 => IterResult.next { st with items := items2 } keys
    else if s = "ENTER" then IterResult.done (Outcome.confirmed (confirmTags st.items))
    else if s = "ESCAPE" then IterResult.done Outcome.cancelled
    else IterResult.next st keys

/-- Lines 545-573 of the source: if the visible range is falsy, prompt and
continue; otherwise render (no modelled state) and block for one key, which
is then dispatched. -/
def step3 (cfg : Config) (st : LoopState) (keys : List SessKey) : IterResult :=
  if ¬ optTruthy st.visible_range then errContinue st keys
  else
    match keys with
    | [] => IterResult.done Outcome.stuck
    | k :: keys2 => dispatch cfg st k keys2

/-- Lines 541-543 of the source: scroll to the cursor when it is out of view
or the range is falsy, then proceed. -/
def afterResize (cfg : Config) (st : LoopState) (keys : List SessKey) : IterResult :=
  if needScroll st.visible_range st.current_position then
    match scroll_to (heightsOf st.items) cfg.item_margin st.usable_height st.scroll_max
        st.current_position keys with
    | SubResult.ok vr keys2 => step3 cfg { st with visible_range := vr } keys2
    | SubResult.cancelled => IterResult.done Outcome.cancelled
    | SubResult.stuck => IterResult.done Outcome.stuck
    | SubResult.crashed e => IterResult.done (Outcome.crashed e)
  else step3 cfg st keys

/-- Lines 519-539 of the source, after the width check: adopt the new
geometry, recompute usable_height and scroll_max (prompting and resetting the
cached geometry when the backward scan fails), and recompute the visible
range from its previous first position (or the cursor when it was None). -/
def resizeCont (cfg : Config) (st0 : LoopState) (keys : List SessKey) : IterResult :=
  let st := { st0 with terminal_width := cfg.realW, terminal_height := cfg.realH,
                       usable_height := cfg.realH - (cfg.header_lines.length : Int) - 3 }
  let heights := heightsOf st.items
  match get_visible_range heights cfg.item_margin st.usable_height
      ((st.items.length : Int) - 1) true with
  | Option.some smvr =>
    if smvr.isTruthy then
      let st2 := { st with scroll_max := smvr.first }
      let pos := match st2.visible_range with
        | Option.some r => r.first
        | Option.none => st2.current_position
      afterResize cfg
        { st2 with visible_range := get_visible_range heights cfg.item_margin st2.usable_height pos false }
        keys
    else
      match render_error keys with
      | ErrResult.ok keys2 => IterResult.next { st with terminal_width := 0, terminal_height := 0 } keys2
      | ErrResult.cancelled => IterResult.done Outcome.cancelled
      | ErrResult.stuck => IterResult.done Outcome.stuck
  | Option.none =>
    match render_error keys with
    | ErrResult.ok keys2 => IterResult.next { st with terminal_width := 0, terminal_height := 0 } keys2
    | ErrResult.cancelled => IterResult.done Outcome.cancelled
    | ErrResult.stuck => IterResult.done Outcome.stuck

/-- One pass of the while-True body of tui_checklist (lines 511-628).  On a
geometry change with truncation disabled, the width check first takes the max
of the header line widths and of the item line counts; over an empty item
list that max raises ValueError. -/
def loopIter (cfg : Config) (st : LoopState) (keys : List SessKey) : IterResult :=
  if st.terminal_width ≠ cfg.realW ∨ st.terminal_height ≠ cfg.realH then
    if cfg.truncate_lines then resizeCont cfg st keys
    else
      match st.items with
      | [] => IterResult.done (Outcome.crashed "ValueError")
      | _ =>
        if cfg.realW < ((max (listMaxNat (cfg.header_lines.map String.length))
            (listMaxNat (st.items.map (fun it => it.label_lines.length))) : Nat) : Int) then
          errContinue st keys
        else resizeCont cfg st keys
  else afterResize cfg st keys

/-- The full event loop: iterate the body until the session ends, with fuel
bounding the number of passes (each pass of the source consumes at least one
key, so stream length is a sufficient fuel bound). -/
def mainLoop (cfg : Config) : Nat → LoopState → List SessKey → Outcome
  | 0, _, _ => Outcome.stuck
  | fuel+1, st, keys =>
    match loopIter cfg st keys with
    | IterResult.done o => o
    | IterResult.next st2 keys2 => mainLoop cfg fuel st2 keys2

/-- The fixed on-screen instruction line of the source. -/
def instructionsLine : String :=
  "(Arrows: Move, Space: Toggle, PgUp/Dn: Scroll, Home/End: Jump, Enter: Save, Esc/Ctrl+C: Cancel)"

/-- header_lines of the source (line 509) for a non-None header: the header
split on newlines with the instruction line appended. -/
def headerLinesOf (header : String) : List String :=
  pySplitNl header ++ [instructionsLine]

/-- The list comprehension of line 341: normalize every raw item, stopping at
the first conversion failure. -/
def normalizeAll : List RawItem → Except String (List ChecklistItem)
  | [] => Except.ok []
  | r :: rs =>
    match _make_checklist_item r with
    | Except.error e => Except.error e
    | Except.ok it =>
      match normalizeAll rs with
      | Except.error e => Except.error e
      | Except.ok its => Except.ok (it :: its)

/-- Line 342 of the source: every item whose tag is None receives its 0-based
position as tag. -/
def assignTags (items : List ChecklistItem) : List ChecklistItem :=
  items.enum.map (fun p =>
    if p.2.tag = PyVal.none then { p.2 with tag := PyVal.int (p.1 : Int) } else p.2)

/-- The initial session state of tui_checklist: cached geometry zeroed so the
first pass runs the measuring block, no visible range, cursor at 0. -/
def initState (items : List ChecklistItem) : LoopState :=
  { terminal_width := 0, terminal_height := 0, usable_height := 0,
    visible_range := Option.none, scroll_max := 0, current_position := 0, items := items }

/-- The observable result of a tui_checklist call: whether the terminal was
switched to app mode (line 344) before the outcome was produced. -/
structure SessionResult where
  enteredAppMode : Bool
  outcome : Outcome
deriving DecidableEq

/-- tui_checklist of the source, as a function of the raw items, the keyword
arguments, the (constant) reported terminal size, and the pending input.
Normalization failures surface before the terminal is touched; a None header
raises AttributeError at line 509 (None.split), after app mode was entered. -/
def tui_checklist (raw_items : List RawItem) (header : Option String) (item_margin : Int)
    (truncate_lines : Bool) (realW realH : Int) (keys : List SessKey) (fuel : Nat) :
    SessionResult :=
  match normalizeAll raw_items with
  | Except.error _ => { enteredAppMode := false, outcome := Outcome.crashed "TypeError" }
  | Except.ok items0 =>
    let items := assignTags items0
    match header with
    | Option.none => { enteredAppMode := true, outcome := Outcome.crashed "AttributeError" }
    | Option.some h =>
      { enteredAppMode := true,
        outcome := mainLoop
          { realW := realW, realH := realH, header_lines := headerLinesOf h,
            item_margin := item_margin, truncate_lines := truncate_lines }
          fuel (initState items) keys }

/-- The result of one InputHandler.get_key call on Windows: the interrupt
(Ctrl+C byte), a mapped name, or raw bytes passed through. -/
inductive WinKey where
  | interrupt
  | str (s : String)
  | bytes (bs : List Nat)
deriving DecidableEq

/-- WIN_ESCAPED_MAPPING of the source, with the byte keys written as their
numeric values: H, P, I, Q, G, O. -/
def WIN_ESCAPED_MAPPING : List (Nat × String) :=
  [(72, "UP"), (80, "DOWN"), (73, "PGUP"), (81, "PGDN"), (71, "HOME"), (79, "END")]

/-- WIN_NORMAL_MAPPING of the source: space, carriage return, escape. -/
def WIN_NORMAL_MAPPING : List (Nat × String) :=
  [(32, "SPACE"), (13, "ENTER"), (27, "ESCAPE")]

/-- InputHandler.get_key of the Windows branch of the source, over a stream
of bytes: Ctrl+C raises the interrupt; a 0x00 or 0xe0 lead byte consumes one
more byte and looks it up in the escaped mapping, falling back to the raw
two-byte sequence; any other byte is looked up in the normal mapping, falling
back to the byte itself.  Result none models blocking on an empty stream. -/
def win_get_key (input : List Nat) : Option (WinKey × List Nat) :=
  match input with
  | [] => Option.none
  | b :: rest =>
    if b = 3 then Option.some (WinKey.interrupt, rest)
    else if b = 0 ∨ b = 224 then
      match rest with
      | [] => Option.none
      | b2 :: rest2 =>
        match WIN_ESCAPED_MAPPING.lookup b2 with
        | Option.some name => Option.some (WinKey.str name, rest2)
        | Option.none => Option.some (WinKey.bytes [b, b2], rest2)
    else
      match WIN_NORMAL_MAPPING.lookup b with
      | Option.some name => Option.some (WinKey.str name, rest)
      | Option.none => Option.some (WinKey.bytes [b], rest)

/-- The result of one InputHandler.get_key call on Unix: the interrupt, a
string (a mapped name or a passed-through character), or None for an
unmapped or malformed escape sequence. -/
inductive UnixKey where
  | interrupt
  | str (s : String)
  | unknownSeq
deriving DecidableEq

/-- UNIX_VT_MAPPING of the source: VT escape-sequence suffixes.  Entries with
value none are mapped to Python None (decoded but deliberately unnamed). -/
def UNIX_VT_MAPPING : List (String × Option String) :=
  [("1~", Option.some "HOME"), ("2~", Option.some "INSERT"), ("3~", Option.some "DELETE"),
   ("4~", Option.some "END"), ("5~", Option.some "PAGE_UP"), ("6~", Option.some "PAGE_DOWN"),
   ("7~", Option.some "HOME"), ("8~", Option.some "END"), ("9~", Option.none),
   ("10~", Option.some "F0"), ("11~", Option.some "F1"), ("12~", Option.some "F2"),
   ("13~", Option.some "F3"), ("14~", Option.some "F4"), ("15~", Option.some "F5"),
   ("16~", Option.none), ("17~", Option.some "F6"), ("18~", Option.some "F7"),
   ("19~", Option.some "F8"), ("20~", Option.some "F9"), ("21~", Option.some "F10"),
   ("22~", Option.none), ("23~", Option.some "F11"), ("24~", Option.some "F12"),
   ("25~", Option.some "F13"), ("26~", Option.some "F14"), ("27~", Option.none),
   ("28~", Option.some "F15"), ("29~", Option.some "F16"), ("30~", Option.none),
   ("31~", Option.some "F17"), ("32~", Option.some "F18"), ("33~", Option.some "F19"),
   ("34~", Option.some "F20"), ("35~", Option.none)]

/-- UNIX_XTERM_MAPPING of the source: xterm escape-sequence suffixes. -/
def UNIX_XTERM_MAPPING : List (String × Option String) :=
  [("A", Option.some "UP"), ("B", Option.some "DOWN"), ("C", Option.some "RIGHT"),
   ("D", Option.some "LEFT"), ("E", Option.none), ("F", Option.some "END"),
   ("G", Option.some "KEYPAD5"), ("H", Option.some "HOME"), ("I", Option.none),
   ("J", Option.none), ("K", Option.none), ("L", Option.none), ("M", Option.none),
   ("N", Option.none), ("O", Option.none), ("1P", Option.some "F1"),
   ("1Q", Option.some "F2"), ("1R", Option.some "F3"), ("1S", Option.some "F4"),
   ("T", Option.none), ("U", Option.none), ("V", Option.none), ("W", Option.none),
   ("X", Option.none), ("Y", Option.none), ("Z", Option.none)]

/-- UNIX_TERM_MAPPING of the source: the dict union of the VT and xterm
tables.  Their key sets are disjoint, so the association-list concatenation
has the same lookup behaviour as the Python dict union. -/
def UNIX_TERM_MAPPING : List (String × Option String) :=
  UNIX_VT_MAPPING ++ UNIX_XTERM_MAPPING

/-- UNIX_NORMAL_MAPPING of the source.  Note the escape entry: it is present
in the table, but InputHandler.get_key routes every escape byte into the
escape-sequence branch first, so the lookup can never see it. -/
def UNIX_NORMAL_MAPPING : List (Char × String) :=
  [(' ', "SPACE"), ('\r', "ENTER"), ('\x1b', "ESCAPE")]

/-- The inner for-loop of the Unix get_key: read up to three further
characters, extending the sequence and returning as soon as the table has an
entry for it (a None entry returns Python None); after three unmatched reads
return None. -/
def unixSeqLoop (fuel : Nat) (input : List Char) (seq : String) : Option (UnixKey × List Char) :=
  match fuel, input with
  | 0, rest => Option.some (UnixKey.unknownSeq, rest)
  | _+1, [] => Option.none
  | n+1, c :: rest =>
    let seq2 := seq.push c
    match UNIX_TERM_MAPPING.lookup seq2 with
    | Option.some (Option.some name) => Option.some (UnixKey.str name, rest)
    | Option.some Option.none => Option.some (UnixKey.unknownSeq, rest)
    | Option.none => unixSeqLoop n rest seq2

/-- InputHandler.get_key of the Unix branch of the source, over a stream of
characters: Ctrl+C raises the interrupt; an escape character always reads one
more character, and only a CSI or SS3 lead continues into the sequence loop,
anything else yielding None; plain characters are looked up in the normal
mapping, falling back to the character itself.  Result none models blocking
on an exhausted stream. -/
def unix_get_key (input : List Char) : Option (UnixKey × List Char) :=
  match input with
  | [] => Option.none
  | c :: rest =>
    if c = '\x03' then Option.some (UnixKey.interrupt, rest)
    else if c = '\x1b' then
      match rest with
      | [] => Option.none
      | p :: rest2 =>
        if p = '[' ∨ p = 'O' then unixSeqLoop 3 rest2 ""
        else Option.some (UnixKey.unknownSeq, rest2)
    else
      match UNIX_NORMAL_MAPPING.lookup c with
      | Option.some name => Option.some (UnixKey.str name, rest)
      | Option.none => Option.some (UnixKey.str (String.mk [c]), rest)

theorem intRangeAux_succ (n : Nat) : ∀ a : Int,
    intRangeAux a (n + 1) = intRangeAux a n ++ [a + (n : Int)] := by
  induction n with
  | zero => intro a; simp [intRangeAux]
  | succ k ih =>
    intro a
    rw [intRangeAux, ih (a + 1), intRangeAux]
    simp only [List.cons_append]
    have h : a + 1 + (k : Int) = a + ((k : Nat) + 1 : Nat) := by push_cast; ring
    rw [h]

theorem rangeHeight_same (heights : List Int) (m f : Int) :
    rangeHeight heights m f f = pyIndex heights f := by
  have h1 : (f + 1 - f).toNat = 1 := by omega
  simp [rangeHeight, intRange, h1, intRangeAux]

theorem rangeHeight_empty (heights : List Int) (m f : Int) :
    rangeHeight heights m f (f - 1) = -m := by
  have h1 : (f - 1 + 1 - f).toNat = 0 := by omega
  simp [rangeHeight, intRange, h1, intRangeAux]

theorem rangeHeight_succ (heights : List Int) (m f l : Int) (hle : f ≤ l + 1) :
    rangeHeight heights m f (l + 1) = rangeHeight heights m f l + m + pyIndex heights (l + 1) := by
  have h1 : (l + 1 + 1 - f).toNat = (l + 1 - f).toNat + 1 := by omega
  have h2 : f + (((l + 1 - f).toNat : Nat) : Int) = l + 1 := by omega
  unfold rangeHeight intRange
  rw [h1, intRangeAux_succ, h2]
  simp [List.sum_append]
  ring

theorem rangeHeight_pred (heights : List Int) (m f l : Int) (hle : f ≤ l + 1) :
    rangeHeight heights m (f - 1) l = pyIndex heights (f - 1) + m + rangeHeight heights m f l := by
  have h1 : (l + 1 - (f - 1)).toNat = (l + 1 - f).toNat + 1 := by omega
  unfold rangeHeight intRange
  rw [h1, intRangeAux]
  have h2 : f - 1 + 1 = f := by ring
  rw [h2]
  simp
  ring

theorem rangeHeight_drop_last (heights : List Int) (m f l : Int) (hle : f ≤ l) :
    rangeHeight heights m f l - (m + pyIndex heights l) = rangeHeight heights m f (l - 1) := by
  have h := rangeHeight_succ heights m f (l - 1) (by omega)
  have h2 : l - 1 + 1 = l := by ring
  rw [h2] at h
  omega

theorem rangeHeight_drop_first (heights : List Int) (m f l : Int) (hle : f ≤ l) :
    rangeHeight heights m f l - (m + pyIndex heights f) = rangeHeight heights m (f + 1) l := by
  have h := rangeHeight_pred heights m (f + 1) l (by omega)
  have h2 : f + 1 - 1 = f := by ring
  rw [h2] at h
  omega

theorem gvrLoop_cons (heights : List Int) (m usable i : Int) (rest : List Int) (vl vh : Int) :
    gvrLoop heights m usable (i :: rest) (vl, vh) =
      if usable < vh + m + pyIndex heights i then (vl, vh)
      else gvrLoop heights m usable rest (i, vh + m + pyIndex heights i) := rfl

theorem gvrLoop_spec (heights : List Int) (m usable f : Int) : ∀ (n : Nat) (l0 h0 vl vh : Int),
    h0 = rangeHeight heights m f l0 → f ≤ l0 + 1 →
    gvrLoop heights m usable (intRangeAux (l0 + 1) n) (l0, h0) = (vl, vh) →
    vh = rangeHeight heights m f vl ∧ l0 ≤ vl ∧ vl ≤ l0 + (n : Int) ∧
      (h0 ≤ usable → vh ≤ usable) ∧ (l0 < vl → vh ≤ usable) := by
  intro n
  induction n with
  | zero =>
    intro l0 h0 vl vh hh _ hrun
    simp only [intRangeAux, gvrLoop] at hrun
    have h1 : l0 = vl := congrArg Prod.fst hrun
    have h2 : h0 = vh := congrArg Prod.snd hrun
    subst h1; subst h2
    exact ⟨hh, le_refl _, by omega, fun h => h, fun h => absurd h (by omega)⟩
  | succ k ih =>
    intro l0 h0 vl vh hh hf hrun
    rw [intRangeAux, gvrLoop_cons] at hrun
    by_cases hfit : usable < h0 + m + pyIndex heights (l0 + 1)
    · rw [if_pos hfit] at hrun
      have h1 : l0 = vl := congrArg Prod.fst hrun
      have h2 : h0 = vh := congrArg Prod.snd hrun
      subst h1; subst h2
      exact ⟨hh, le_refl _, by omega, fun h => h, fun h => absurd h (by omega)⟩
    · rw [if_neg hfit] at hrun
      have hnext : h0 + m + pyIndex heights (l0 + 1) = rangeHeight heights m f (l0 + 1) := by
        rw [rangeHeight_succ heights m f l0 hf, hh]
      rw [hnext] at hrun
      have hstep : l0 + 1 + 1 = l0 + 2 := by ring
      rw [hstep] at hrun
      have ihres := ih (l0 + 1) (rangeHeight heights m f (l0 + 1)) vl vh rfl (by omega) (by
        have hstep2 : (l0 + 1) + 1 = l0 + 2 := by ring
        rw [hstep2]
        exact hrun)
      obtain ⟨c1, c2, c3, c4, c5⟩ := ihres
      have hle : rangeHeight heights m f (l0 + 1) ≤ usable := by
        rw [← hnext]; omega
      refine ⟨c1, by omega, by push_cast; omega, fun _ => ?_, fun _ => ?_⟩
      · rcases lt_or_le (l0 + 1) vl with h | h
        · exact c5 h
        · have : vl = l0 + 1 := by omega
          rw [c1, this]
          exact hle
      · rcases lt_or_le (l0 + 1) vl with h | h
        · exact c5 h
        · have : vl = l0 + 1 := by omega
          rw [c1, this]
          exact hle

theorem gvrLoop_desc_spec (heights : List Int) (m usable L : Int) : ∀ (n : Nat) (f0 h0 vl vh : Int),
    h0 = rangeHeight heights m f0 L → f0 ≤ L + 1 →
    gvrLoop heights m usable (intRangeDescAux (f0 - 1) n) (f0, h0) = (vl, vh) →
    vh = rangeHeight heights m vl L ∧ f0 - (n : Int) ≤ vl ∧ vl ≤ f0 ∧
      (h0 ≤ usable → vh ≤ usable) ∧ (vl < f0 → vh ≤ usable) := by
  intro n
  induction n with
  | zero =>
    intro f0 h0 vl vh hh _ hrun
    simp only [intRangeDescAux, gvrLoop] at hrun
    have h1 : f0 = vl := congrArg Prod.fst hrun
    have h2 : h0 = vh := congrArg Prod.snd hrun
    subst h1; subst h2
    exact ⟨hh, by omega, le_refl _, fun h => h, fun h => absurd h (by omega)⟩
  | succ k ih =>
    intro f0 h0 vl vh hh hf hrun
    rw [intRangeDescAux, gvrLoop_cons] at hrun
    by_cases hfit : usable < h0 + m + pyIndex heights (f0 - 1)
    · rw [if_pos hfit] at hrun
      have h1 : f0 = vl := congrArg Prod.fst hrun
      have h2 : h0 = vh := congrArg Prod.snd hrun
      subst h1; subst h2
      exact ⟨hh, by omega, le_refl _, fun h => h, fun h => absurd h (by omega)⟩
    · rw [if_neg hfit] at hrun
      have hnext : h0 + m + pyIndex heights (f0 - 1) = rangeHeight heights m (f0 - 1) L := by
        rw [rangeHeight_pred heights m f0 L hf, hh]
        ring
      rw [hnext] at hrun
      have hstep : f0 - 1 - 1 = f0 - 2 := by ring
      have ihres := ih (f0 - 1) (rangeHeight heights m (f0 - 1) L) vl vh rfl (by omega) (by
        have hstep2 : (f0 - 1) - 1 = f0 - 2 := by ring
        rw [hstep2, ← hstep]
        exact hrun)
      obtain ⟨c1, c2, c3, c4, c5⟩ := ihres
      have hle : rangeHeight heights m (f0 - 1) L ≤ usable := by
        rw [← hnext]; omega
      refine ⟨c1, by push_cast at c2 ⊢; omega, by omega, fun _ => ?_, fun _ => ?_⟩
      · rcases lt_or_le vl (f0 - 1) with h | h
        · exact c5 h
        · have : vl = f0 - 1 := by omega
          rw [c1, this]
          exact hle
      · rcases lt_or_le vl (f0 - 1) with h | h
        · exact c5 h
        · have : vl = f0 - 1 := by omega
          rw [c1, this]
          exact hle

theorem stripLoop_cons (heights : List Int) (m usable i : Int) (rest : List Int) (ctr h step : Int) :
    stripLoop heights m usable (i :: rest) ctr h step =
      if usable < h then stripLoop heights m usable rest (ctr + step) (h - (m + pyIndex heights i)) step
      else (ctr, h) := rfl

theorem stripLoop_up_spec (heights : List Int) (m usable vf : Int) : ∀ (n : Nat) (a h vl vh : Int),
    a = vf + (n : Int) - 1 → h = rangeHeight heights m vf a →
    stripLoop heights m usable (intRangeDescAux a n) a h (-1) = (vl, vh) →
    vh = rangeHeight heights m vf vl ∧ vf - 1 ≤ vl ∧ vl ≤ a ∧ (vf ≤ vl → vh ≤ usable) := by
  intro n
  induction n with
  | zero =>
    intro a h vl vh ha hh hrun
    simp only [intRangeDescAux, stripLoop] at hrun
    have h1 : a = vl := congrArg Prod.fst hrun
    have h2 : h = vh := congrArg Prod.snd hrun
    subst h1; subst h2
    simp only [Nat.cast_zero] at ha
    exact ⟨hh, by omega, le_refl _, fun hc => absurd hc (by omega)⟩
  | succ k ih =>
    intro a h vl vh ha hh hrun
    rw [intRangeDescAux, stripLoop_cons] at hrun
    by_cases hbig : usable < h
    · rw [if_pos hbig] at hrun
      have hdrop : h - (m + pyIndex heights a) = rangeHeight heights m vf (a - 1) := by
        rw [hh]
        exact rangeHeight_drop_last heights m vf a (by push_cast at ha; omega)
      rw [hdrop] at hrun
      have hctr : a + -1 = a - 1 := by ring
      rw [hctr] at hrun
      have ihres := ih (a - 1) (rangeHeight heights m vf (a - 1)) vl vh
        (by push_cast at ha ⊢; omega) rfl hrun
      obtain ⟨c1, c2, c3, c4⟩ := ihres
      exact ⟨c1, c2, by omega, c4⟩
    · rw [if_neg hbig] at hrun
      have h1 : a = vl := congrArg Prod.fst hrun
      have h2 : h = vh := congrArg Prod.snd hrun
      subst h1; subst h2
      exact ⟨hh, by push_cast at ha; omega, le_refl _, fun _ => by omega⟩

theorem stripLoop_down_spec (heights : List Int) (m usable L : Int) : ∀ (n : Nat) (a h vf vh : Int),
    a = L - (n : Int) + 1 → h = rangeHeight heights m a L →
    stripLoop heights m usable (intRangeAux a n) a h 1 = (vf, vh) →
    vh = rangeHeight heights m vf L ∧ a ≤ vf ∧ vf ≤ L + 1 ∧ (vf ≤ L → vh ≤ usable) := by
  intro n
  induction n with
  | zero =>
    intro a h vf vh ha hh hrun
    simp only [intRangeAux, stripLoop] at hrun
    have h1 : a = vf := congrArg Prod.fst hrun
    have h2 : h = vh := congrArg Prod.snd hrun
    subst h1; subst h2
    simp only [Nat.cast_zero] at ha
    exact ⟨hh, le_refl _, by omega, fun hc => absurd hc (by omega)⟩
  | succ k ih =>
    intro a h vf vh ha hh hrun
    rw [intRangeAux, stripLoop_cons] at hrun
    by_cases hbig : usable < h
    · rw [if_pos hbig] at hrun
      have hdrop : h - (m + pyIndex heights a) = rangeHeight heights m (a + 1) L := by
        rw [hh]
        exact rangeHeight_drop_first heights m a L (by push_cast at ha; omega)
      rw [hdrop] at hrun
      have ihres := ih (a + 1) (rangeHeight heights m (a + 1) L) vf vh
        (by push_cast at ha ⊢; omega) rfl hrun
      obtain ⟨c1, c2, c3, c4⟩ := ihres
      exact ⟨c1, by omega, c3, c4⟩
    · rw [if_neg hbig] at hrun
      have h1 : a = vf := congrArg Prod.fst hrun
      have h2 : h = vh := congrArg Prod.snd hrun
      subst h1; subst h2
      exact ⟨hh, le_refl _, by push_cast at ha; omega, fun _ => by omega⟩

theorem gvr_forward_spec (heights : List Int) (m usable p : Int) (hp : 0 ≤ p) (r : _ItemRange) :
    get_visible_range heights m usable p false = Option.some r →
    r.first = p ∧ p ≤ r.last ∧ r.last < (heights.length : Int) ∧
      r.height = rangeHeight heights m p r.last ∧ r.height ≤ usable := by
  intro hsome
  unfold get_visible_range at hsome
  simp only [Bool.false_eq_true, if_false] at hsome
  by_cases hlen : (heights.length : Int) ≤ p
  · have h0 : ((heights.length : Int) - p).toNat = 0 := by omega
    simp [intRange, h0, intRangeAux, gvrLoop] at hsome
  · push_neg at hlen
    have h0 : ((heights.length : Int) - p).toNat = ((heights.length : Int) - (p + 1)).toNat + 1 := by
      omega
    rw [intRange, h0, intRangeAux, gvrLoop_cons] at hsome
    by_cases hfit : usable < -m + m + pyIndex heights p
    · rw [if_pos hfit] at hsome
      simp at hsome
    · rw [if_neg hfit] at hsome
      have hacc : -m + m + pyIndex heights p = rangeHeight heights m p p := by
        rw [rangeHeight_same]; ring
      rw [hacc] at hsome
      rcases hq : gvrLoop heights m usable
          (intRangeAux (p + 1) ((heights.length : Int) - (p + 1)).toNat)
          (p, rangeHeight heights m p p) with ⟨vl, vh⟩
      have hspec := gvrLoop_spec heights m usable p
        (((heights.length : Int) - (p + 1)).toNat) p (rangeHeight heights m p p) vl vh rfl
        (by omega) hq
      obtain ⟨c1, c2, c3, c4, c5⟩ := hspec
      rw [hq] at hsome
      have hvl : vl ≠ -1 := by omega
      rw [if_pos hvl] at hsome
      have hr : r = { first := p, last := vl, height := vh } := by
        cases hsome; rfl
      subst hr
      have hfits : vh ≤ usable := c4 (by rw [rangeHeight_same]; omega)
      refine ⟨rfl, c2, ?_, c1, hfits⟩
      show vl < (heights.length : Int)
      have hbound : vl ≤ p + (((heights.length : Int) - (p + 1)).toNat : Int) := c3
      omega

theorem gvr_forward_none (heights : List Int) (m usable p : Int) (hp : 0 ≤ p)
    (hlt : p < (heights.length : Int)) :
    (get_visible_range heights m usable p false = Option.none ↔ usable < pyIndex heights p) := by
  unfold get_visible_range
  simp only [Bool.false_eq_true, if_false]
  have h0 : ((heights.length : Int) - p).toNat = ((heights.length : Int) - (p + 1)).toNat + 1 := by
    omega
  rw [intRange, h0, intRangeAux, gvrLoop_cons]
  by_cases hfit : usable < -m + m + pyIndex heights p
  · rw [if_pos hfit]
    have hcond : ¬ ((((-1 : Int), -m)).1 ≠ -1) := by simp
    rw [if_neg hcond]
    have hring : -m + m + pyIndex heights p = pyIndex heights p := by ring
    constructor
    · intro _
      omega
    · intro _
      rfl
  · rw [if_neg hfit]
    have hacc : -m + m + pyIndex heights p = rangeHeight heights m p p := by
      rw [rangeHeight_same]; ring
    rw [hacc]
    rcases hq : gvrLoop heights m usable
        (intRangeAux (p + 1) ((heights.length : Int) - (p + 1)).toNat)
        (p, rangeHeight heights m p p) with ⟨vl, vh⟩
    have hspec := gvrLoop_spec heights m usable p
      (((heights.length : Int) - (p + 1)).toNat) p (rangeHeight heights m p p) vl vh rfl
      (by omega) hq
    obtain ⟨c1, c2, c3, c4, c5⟩ := hspec
    have hvl : vl ≠ -1 := by omega
    rw [if_pos hvl]
    constructor
    · intro hcon
      simp at hcon
    · intro hcon
      have : -m + m + pyIndex heights p = pyIndex heights p := by ring
      omega

theorem gvr_backward_spec (heights : List Int) (m usable p : Int) (hp : 0 ≤ p) (r : _ItemRange) :
    get_visible_range heights m usable p true = Option.some r →
    r.last = p ∧ r.first ≤ p ∧ 0 ≤ r.first ∧
      r.height = rangeHeight heights m r.first p ∧ r.height ≤ usable := by
  intro hsome
  unfold get_visible_range at hsome
  simp only [if_true] at hsome
  have h0 : (p - (-1)).toNat = p.toNat + 1 := by omega
  rw [intRangeDesc, h0, intRangeDescAux, gvrLoop_cons] at hsome
  by_cases hfit : usable < -m + m + pyIndex heights p
  · rw [if_pos hfit] at hsome
    simp at hsome
  · rw [if_neg hfit] at hsome
    have hacc : -m + m + pyIndex heights p = rangeHeight heights m p p := by
      rw [rangeHeight_same]; ring
    rw [hacc] at hsome
    rcases hq : gvrLoop heights m usable (intRangeDescAux (p - 1) p.toNat)
        (p, rangeHeight heights m p p) with ⟨vl, vh⟩
    have hspec := gvrLoop_desc_spec heights m usable p p.toNat p (rangeHeight heights m p p)
      vl vh rfl (by omega) hq
    obtain ⟨c1, c2, c3, c4, c5⟩ := hspec
    rw [hq] at hsome
    have hvl : vl ≠ -1 := by omega
    rw [if_pos hvl] at hsome
    have hr : r = { first := vl, last := p, height := vh } := by
      cases hsome; rfl
    subst hr
    have hfits : vh ≤ usable := c4 (by rw [rangeHeight_same]; omega)
    refine ⟨rfl, c3, ?_, c1, hfits⟩
    show (0 : Int) ≤ vl
    omega

theorem gvr_backward_none (heights : List Int) (m usable p : Int) (hp : 0 ≤ p) :
    (get_visible_range heights m usable p true = Option.none ↔ usable < pyIndex heights p) := by
  unfold get_visible_range
  simp only [if_true]
  have h0 : (p - (-1)).toNat = p.toNat + 1 := by omega
  rw [intRangeDesc, h0, intRangeDescAux, gvrLoop_cons]
  by_cases hfit : usable < -m + m + pyIndex heights p
  · rw [if_pos hfit]
    have hcond : ¬ ((((-1 : Int), -m)).1 ≠ -1) := by simp
    rw [if_neg hcond]
    have hring : -m + m + pyIndex heights p = pyIndex heights p := by ring
    constructor
    · intro _
      omega
    · intro _
      rfl
  · rw [if_neg hfit]
    have hacc : -m + m + pyIndex heights p = rangeHeight heights m p p := by
      rw [rangeHeight_same]; ring
    rw [hacc]
    rcases hq : gvrLoop heights m usable (intRangeDescAux (p - 1) p.toNat)
        (p, rangeHeight heights m p p) with ⟨vl, vh⟩
    have hspec := gvrLoop_desc_spec heights m usable p p.toNat p (rangeHeight heights m p p)
      vl vh rfl (by omega) hq
    obtain ⟨c1, c2, c3, c4, c5⟩ := hspec
    have hvl : vl ≠ -1 := by omega
    rw [if_pos hvl]
    constructor
    · intro hcon
      simp at hcon
    · intro hcon
      have : -m + m + pyIndex heights p = pyIndex heights p := by ring
      omega

theorem isTruthy_of_le (r : _ItemRange) (h : r.first ≤ r.last) : r.isTruthy = true := by
  simp only [_ItemRange.isTruthy, _ItemRange.pyLen, bne_iff_ne, ne_eq]
  omega

theorem scroll_to_spec (heights : List Int) (m usable sm p : Int) (keys : List SessKey)
    (r2 : _ItemRange) (keys2 : List SessKey) :
    scroll_to heights m usable sm p keys = SubResult.ok (Option.some r2) keys2 →
    r2.first = p ∧ p ≤ r2.last ∧ r2.last < (heights.length : Int) ∧
      r2.height = rangeHeight heights m p r2.last ∧ r2.height ≤ usable ∧ 0 ≤ p ∧ p ≤ sm := by
  intro h
  unfold scroll_to at h
  by_cases hg : p < 0 ∨ sm < p
  · rw [if_pos hg] at h
    cases h
  · rw [if_neg hg] at h
    push_neg at hg
    obtain ⟨hp0, hpsm⟩ := hg
    rcases hv : get_visible_range heights m usable p false with _ | r3
    · rw [hv] at h
      simp only [optTruthy, Bool.false_eq_true, if_false] at h
      rcases hre : render_error keys with k3 | _ | _ <;> rw [hre] at h <;> cases h
    · rw [hv] at h
      have hspec := gvr_forward_spec heights m usable p hp0 r3 hv
      by_cases ht : optTruthy (Option.some r3) = true
      · rw [if_pos ht] at h
        cases h
        exact ⟨hspec.1, hspec.2.1, hspec.2.2.1, hspec.2.2.2.1, hspec.2.2.2.2, hp0, hpsm⟩
      · rw [if_neg (by simpa using ht)] at h
        rcases hre : render_error keys with k3 | _ | _ <;> rw [hre] at h <;> cases h
        exact ⟨hspec.1, hspec.2.1, hspec.2.2.1, hspec.2.2.2.1, hspec.2.2.2.2, hp0, hpsm⟩

theorem scrollUpFinish_ok (vfirst vl vh : Int) (keys : List SessKey) (vr : Option _ItemRange)
    (keys2 : List SessKey) :
    scrollUpFinish vfirst (vl, vh) keys = SubResult.ok vr keys2 →
    vr = Option.some { first := vfirst, last := vl, height := vh } := by
  intro h
  unfold scrollUpFinish at h
  by_cases ht : _ItemRange.isTruthy { first := vfirst, last := vl, height := vh } = true
  · rw [if_pos ht] at h
    cases h
    rfl
  · rw [if_neg ht] at h
    rcases hre : render_error keys with k3 | _ | _ <;> rw [hre] at h <;> cases h
    rfl

theorem scrollDownFinish_ok (heights : List Int) (m usable vlast vf vh : Int)
    (keys : List SessKey) (vr : Option _ItemRange) (keys2 : List SessKey) :
    scrollDownFinish heights m usable vlast (vf, vh) keys = SubResult.ok vr keys2 →
    vr = Option.some
      { first := vf,
        last := (gvrLoop heights m usable (intRange (vlast + 1) (heights.length : Int)) (vlast, vh)).1,
        height := (gvrLoop heights m usable (intRange (vlast + 1) (heights.length : Int)) (vlast, vh)).2 } := by
  intro h
  unfold scrollDownFinish at h
  rcases hg : gvrLoop heights m usable (intRange (vlast + 1) (heights.length : Int)) (vlast, vh)
    with ⟨gl, gh⟩
  rw [hg] at h
  simp only [hg]
  by_cases ht : _ItemRange.isTruthy { first := vf, last := gl, height := gh } = true
  · rw [if_pos ht] at h
    cases h
    rfl
  · rw [if_neg ht] at h
    rcases hre : render_error keys with k3 | _ | _ <;> rw [hre] at h <;> cases h
    rfl

theorem scroll_up_spec (heights : List Int) (m usable sm : Int) (r : _ItemRange)
    (keys : List SessKey) (hfl : r.first ≤ r.last)
    (hh : r.height = rangeHeight heights m r.first r.last) :
    ∀ (r2 : _ItemRange) (vr : Option _ItemRange) (keys2 : List SessKey),
    scroll_up heights m usable sm r keys = SubResult.ok vr keys2 → vr = Option.some r2 →
    r2.height = rangeHeight heights m r2.first r2.last ∧
      (r2.first ≤ r2.last → r2.height ≤ usable) := by
  intro r2 vr keys2 hrun hvr
  unfold scroll_up at hrun
  by_cases h0 : r.first = 0
  · rw [if_pos h0] at hrun
    subst hvr
    have hspec := scroll_to_spec heights m usable sm sm keys r2 keys2 hrun
    obtain ⟨c1, c2, c3, c4, c5, c6, c7⟩ := hspec
    rw [c1]
    exact ⟨c4, fun _ => c5⟩
  · rw [if_neg h0] at hrun
    by_cases hguard : r.first - 1 < -(heights.length : Int) ∨ (heights.length : Int) ≤ r.first - 1
    · rw [if_pos hguard] at hrun
      cases hrun
    · rw [if_neg hguard] at hrun
      simp only [] at hrun
      rcases hp : stripLoop heights m usable (intRangeDesc r.last (r.first - 1 - 1)) r.last
          (r.height + m + pyIndex heights (r.first - 1)) (-1) with ⟨vl, vh⟩
      have hstart : r.height + m + pyIndex heights (r.first - 1) =
          rangeHeight heights m (r.first - 1) r.last := by
        rw [rangeHeight_pred heights m r.first r.last (by omega), hh]
        ring
      have hn : (r.last - (r.first - 1 - 1)).toNat = (r.last - r.first + 2).toNat := by omega
      have hstrip := stripLoop_up_spec heights m usable (r.first - 1) (r.last - r.first + 2).toNat
        r.last (r.height + m + pyIndex heights (r.first - 1)) vl vh
        (by omega) (by rw [hstart]) (by
          rw [← hp, intRangeDesc, hn])
      obtain ⟨c1, c2, c3, c4⟩ := hstrip
      rw [intRangeDesc, hn] at hp
      rw [intRangeDesc, hn] at hrun
      rw [hp] at hrun
      by_cases hbig : usable < vh
      · rw [if_pos hbig] at hrun
        rcases hre : render_error keys with k3 | _ | _ <;> rw [hre] at hrun <;> try cases hrun
        have := scrollUpFinish_ok (r.first - 1) vl vh k3 vr keys2 hrun
        rw [hvr] at this
        cases this
        exact ⟨c1, c4⟩
      · rw [if_neg hbig] at hrun
        have := scrollUpFinish_ok (r.first - 1) vl vh keys vr keys2 hrun
        rw [hvr] at this
        cases this
        exact ⟨c1, c4⟩

theorem scroll_down_spec (heights : List Int) (m usable sm : Int) (r : _ItemRange)
    (keys : List SessKey) (hfl : r.first ≤ r.last)
    (hh : r.height = rangeHeight heights m r.first r.last) :
    ∀ (r2 : _ItemRange) (vr : Option _ItemRange) (keys2 : List SessKey),
    scroll_down heights m usable sm r keys = SubResult.ok vr keys2 → vr = Option.some r2 →
    r2.height = rangeHeight heights m r2.first r2.last ∧
      (r2.first ≤ r2.last → r2.height ≤ usable) := by
  intro r2 vr keys2 hrun hvr
  unfold scroll_down at hrun
  by_cases h0 : r.first = sm
  · rw [if_pos h0] at hrun
    subst hvr
    have hspec := scroll_to_spec heights m usable sm 0 keys r2 keys2 hrun
    obtain ⟨c1, c2, c3, c4, c5, c6, c7⟩ := hspec
    rw [c1]
    exact ⟨c4, fun _ => c5⟩
  · rw [if_neg h0] at hrun
    by_cases hguard : r.last + 1 < -(heights.length : Int) ∨ (heights.length : Int) ≤ r.last + 1
    · rw [if_pos hguard] at hrun
      cases hrun
    · rw [if_neg hguard] at hrun
      simp only [] at hrun
      have hstart : r.height + m + pyIndex heights (r.last + 1) =
          rangeHeight heights m r.first (r.last + 1) := by
        rw [rangeHeight_succ heights m r.first r.last (by omega), hh]
      have hn : (r.last + 1 + 1 - r.first).toNat = (r.last + 2 - r.first).toNat := by omega
      rcases hp : stripLoop heights m usable (intRangeAux r.first (r.last + 2 - r.first).toNat)
          r.first (r.height + m + pyIndex heights (r.last + 1)) 1 with ⟨vf, vh⟩
      have hstrip := stripLoop_down_spec heights m usable (r.last + 1) (r.last + 2 - r.first).toNat
        r.first (r.height + m + pyIndex heights (r.last + 1)) vf vh
        (by omega) (by rw [hstart]) hp
      obtain ⟨c1, c2, c3, c4⟩ := hstrip
      rw [intRange, hn] at hrun
      rw [hp] at hrun
      rcases hg : gvrLoop heights m usable
          (intRange (r.last + 1 + 1) (heights.length : Int)) (r.last + 1, vh) with ⟨gl, gh⟩
      have hgn : intRange (r.last + 1 + 1) (heights.length : Int) =
          intRangeAux ((r.last + 1) + 1) ((heights.length : Int) - ((r.last + 1) + 1)).toNat := by
        rw [intRange]
      have hgrow := gvrLoop_spec heights m usable vf
        (((heights.length : Int) - ((r.last + 1) + 1)).toNat) (r.last + 1) vh gl gh
        c1 (by omega) (by rw [← hgn]; exact hg)
      obtain ⟨g1, g2, g3, g4, g5⟩ := hgrow
      have hfin : ∀ (keysx : List SessKey),
          scrollDownFinish heights m usable (r.last + 1) (vf, vh) keysx = SubResult.ok vr keys2 →
          vr = Option.some { first := vf, last := gl, height := gh } := by
        intro keysx hfx
        have := scrollDownFinish_ok heights m usable (r.last + 1) vf vh keysx vr keys2 hfx
        rw [hg] at this
        exact this
      have hmain : vr = Option.some { first := vf, last := gl, height := gh } := by
        by_cases hbig : usable < vh
        · rw [if_pos hbig] at hrun
          rcases hre : render_error keys with k3 | _ | _ <;> rw [hre] at hrun <;> try cases hrun
          exact hfin k3 hrun
        · rw [if_neg hbig] at hrun
          exact hfin keys hrun
      rw [hvr] at hmain
      cases hmain
      refine ⟨g1, fun hle => ?_⟩
      rcases lt_or_le (r.last + 1) gl with hgt | hle2
      · exact g5 hgt
      · have hgleq : gl = r.last + 1 := by omega
        have hvfle : vf ≤ r.last + 1 := by
          rw [← hgleq]; exact hle
        rcases lt_or_le (r.last + 1) vf with hc | hc2
        · omega
        · have hvh : vh ≤ usable := c4 (by omega)
          exact g4 hvh

/-- C8: navigation wraps at both ends.  Pressing UP with the cursor on item 0
(then the first visible item) re-anchors the window at scroll_max and moves
the cursor to the last item; pressing DOWN with the cursor on the last item
(the window then ending at the last item and anchored at scroll_max, as in
every reachable such state) re-anchors the window at 0 and moves the cursor
to item 0, provided the re-anchoring scans succeed. -/
theorem spec_C8 (cfg : Config) (st : LoopState) (r : _ItemRange) (keys : List SessKey)
    (hvr : st.visible_range = Option.some r) (hlen : 1 ≤ st.items.length) :
    (∀ r2 : _ItemRange, st.current_position = 0 → r.first = 0 → 0 ≤ st.scroll_max →
      get_visible_range (heightsOf st.items) cfg.item_margin st.usable_height st.scroll_max false
        = Option.some r2 →
      dispatch cfg st (SessKey.str "UP") keys =
        IterResult.next (withVrCp st (Option.some r2) ((st.items.length : Int) - 1)) keys ∧
      r2.first = st.scroll_max) ∧
    (∀ r3 : _ItemRange, st.current_position = (st.items.length : Int) - 1 →
      r.last = (st.items.length : Int) - 1 → r.first = st.scroll_max → 0 ≤ st.scroll_max →
      get_visible_range (heightsOf st.items) cfg.item_margin st.usable_height 0 false
        = Option.some r3 →
      dispatch cfg st (SessKey.str "DOWN") keys =
        IterResult.next (withVrCp st (Option.some r3) 0) keys ∧
      r3.first = 0) := by
  constructor
  · intro r2 hcp hfirst hsm hgvr
    have hspec := gvr_forward_spec (heightsOf st.items) cfg.item_margin st.usable_height
      st.scroll_max hsm r2 hgvr
    have htr : r2.isTruthy = true := isTruthy_of_le r2 (by omega)
    refine ⟨?_, hspec.1⟩
    have hguard : ¬ (st.scroll_max < 0 ∨ st.scroll_max < st.scroll_max) := by omega
    have hne : ¬ ((st.items.length : Int) = 0) := by omega
    have hmod2 : (0 - 1 : Int) % (st.items.length : Int) = (st.items.length : Int) - 1 := by
      have h1 : (0 - 1 : Int) = ((st.items.length : Int) - 1) + (st.items.length : Int) * (-1) := by
        ring
      rw [h1, Int.add_mul_emod_self_left]
      exact Int.emod_eq_of_lt (by omega) (by omega)
    simp only [dispatch, hvr, hcp, hfirst, scroll_up, scroll_to, hgvr, optTruthy, htr, if_true]
    rw [if_neg hguard]
    simp only [if_true]
    rw [if_neg hne, hmod2]
  · intro r3 hcp hlast hfs hsm hgvr
    have hspec := gvr_forward_spec (heightsOf st.items) cfg.item_margin st.usable_height
      0 (by omega) r3 hgvr
    have htr : r3.isTruthy = true := isTruthy_of_le r3 (by omega)
    refine ⟨?_, hspec.1⟩
    have hguard : ¬ ((0 : Int) < 0 ∨ st.scroll_max < 0) := by omega
    have hne : ¬ ((st.items.length : Int) = 0) := by omega
    have hmod2 : ((st.items.length : Int) - 1 + 1) % (st.items.length : Int) = 0 := by
      have h1 : ((st.items.length : Int) - 1 + 1) = (st.items.length : Int) := by ring
      rw [h1, Int.emod_self]
    simp only [dispatch]
    rw [if_neg (by decide : ¬ ("DOWN" : String) = "UP")]
    simp only [if_true, hvr, hcp, hlast, hfs, scroll_down, scroll_to, hgvr, optTruthy, htr]
    rw [if_neg hguard]
    simp only [if_true]
    rw [if_neg hne, hmod2]

/-- A three-item session state scrolled to the top, used to instantiate the
wraparound theorem. -/
def wrapItems : List ChecklistItem :=
  [{ label := "a", checked := false, tag := PyVal.none },
   { label := "b", checked := false, tag := PyVal.none },
   { label := "c", checked := false, tag := PyVal.none }]

def wrapCfg : Config :=
  { realW := 80
    realH := 6
    header_lines := ["h"]
    item_margin := 0
    truncate_lines := true }

def wrapStTop : LoopState :=
  { terminal_width := 80
    terminal_height := 6
    usable_height := 1
    visible_range := Option.some { first := 0, last := 0, height := 1 }
    scroll_max := 2
    current_position := 0
    items := wrapItems }

def wrapStBottom : LoopState :=
  { terminal_width := 80
    terminal_height := 6
    usable_height := 1
    visible_range := Option.some { first := 2, last := 2, height := 1 }
    scroll_max := 2
    current_position := 2
    items := wrapItems }

theorem spec_C8_witness :
    ((wrapStTop.visible_range = Option.some { first := 0, last := 0, height := 1 } ∧
        1 ≤ wrapStTop.items.length ∧ wrapStTop.current_position = 0 ∧
        (0 : Int) ≤ wrapStTop.scroll_max) ∧
      (dispatch wrapCfg wrapStTop (SessKey.str "UP") [] =
        IterResult.next
          (withVrCp wrapStTop (Option.some { first := 2, last := 2, height := 1 })
            ((wrapStTop.items.length : Int) - 1)) [] ∧
        (_ItemRange.first { first := 2, last := 2, height := 1 }) = wrapStTop.scroll_max)) ∧
    ((wrapStBottom.visible_range = Option.some { first := 2, last := 2, height := 1 } ∧
        wrapStBottom.current_position = (wrapStBottom.items.length : Int) - 1) ∧
      (dispatch wrapCfg wrapStBottom (SessKey.str "DOWN") [] =
        IterResult.next (withVrCp wrapStBottom (Option.some { first := 0, last := 0, height := 1 }) 0) [] ∧
        (_ItemRange.first { first := 0, last := 0, height := 1 }) = 0)) := by
  constructor
  · constructor
    · exact ⟨by decide, by decide, by decide, by decide⟩
    · exact (spec_C8 wrapCfg wrapStTop { first := 0, last := 0, height := 1 } [] (by decide)
        (by decide)).1 { first := 2, last := 2, height := 1 } (by decide) (by decide) (by decide)
        (by decide)
  · constructor
    · exact ⟨by decide, by decide⟩
    · exact (spec_C8 wrapCfg wrapStBottom { first := 2, last := 2, height := 1 } [] (by decide)
        (by decide)).2 { first := 0, last := 0, height := 1 } (by decide) (by decide) (by decide)
        (by decide) (by decide)

/-- A fifteen-item page-scroll state matching the section-8 example: all
heights 1, margin 0, usable height 5, window 0..4, cursor at offset 2. -/
def pageItems : List ChecklistItem :=
  List.replicate 15 { label := "a", checked := false, tag := PyVal.none }

def pageCfg : Config :=
  { realW := 80
    realH := 10
    header_lines := ["h", instructionsLine]
    item_margin := 0
    truncate_lines := true }

def pageSt : LoopState :=
  { terminal_width := 80
    terminal_height := 10
    usable_height := 5
    visible_range := Option.some { first := 0, last := 4, height := 5 }
    scroll_max := 10
    current_position := 2
    items := pageItems }

/-- C9 (amended): paging.  At the boundary offsets the cursor snaps to index
0 or to the last index with the window unchanged; otherwise the window jumps
by one screen (forward to min scroll_max (last+1), backward to the start of
the window scanned back from just above the current first) and the cursor is
re-placed at new_first + int(r * new_span), where r is the IEEE binary64
quotient (cursor - first) / (last - first) of the old window (0.0 for a
single-item window) and int() truncates toward the window start.  Where the
float arithmetic is exact this is the old relative offset applied to the new
span and floored - in particular in the section-8 example, where paging down
from offset 2 of window 0..4 lands on offset 2 of window 5..9 (item 7) - but
binary64 rounding can place the cursor one item short of the exact ratio
(see the counterexample). -/
theorem spec_C9 (cfg : Config) (st : LoopState) (r : _ItemRange) (keys : List SessKey)
    (hvr : st.visible_range = Option.some r) (hfl : r.first ≤ r.last) (hf0 : 0 ≤ r.first) :
    (r.first = st.scroll_max →
      dispatch cfg st (SessKey.str "PGDN") keys =
        IterResult.next { st with current_position := (st.items.length : Int) - 1 } keys) ∧
    (r.first = 0 →
      dispatch cfg st (SessKey.str "PGUP") keys =
        IterResult.next { st with current_position := 0 } keys) ∧
    (∀ r2 : _ItemRange, r.first ≠ st.scroll_max → 0 ≤ st.scroll_max →
      get_visible_range (heightsOf st.items) cfg.item_margin st.usable_height
          (min st.scroll_max (r.last + 1)) false = Option.some r2 →
      dispatch cfg st (SessKey.str "PGDN") keys =
        IterResult.next
          (withVrCp st (Option.some r2)
            (r2.first + ratioMulTrunc (selection_ratio st.current_position r.first r.last)
              (r2.last - r2.first))) keys ∧
      r2.first = min st.scroll_max (r.last + 1)) ∧
    (∀ nvr r2 : _ItemRange, r.first ≠ 0 → nvr.first ≤ st.scroll_max →
      get_visible_range (heightsOf st.items) cfg.item_margin st.usable_height (r.first - 1) true
        = Option.some nvr →
      get_visible_range (heightsOf st.items) cfg.item_margin st.usable_height nvr.first false
        = Option.some r2 →
      dispatch cfg st (SessKey.str "PGUP") keys =
        IterResult.next
          (withVrCp st (Option.some r2)
            (r2.first + ratioMulTrunc (selection_ratio st.current_position r.first r.last)
              (r2.last - r2.first))) keys ∧
      r2.first = nvr.first) ∧
    (ratioMulTrunc (selection_ratio 2 0 4) 4 = 2 ∧
      dispatch pageCfg pageSt (SessKey.str "PGDN") [] =
        IterResult.next (withVrCp pageSt (Option.some { first := 5, last := 9, height := 5 }) 7) []) := by
  have htr : r.isTruthy = true := isTruthy_of_le r hfl
  refine ⟨?_, ?_, ?_, ?_, by decide, by decide⟩
  · intro hb
    simp only [dispatch]
    rw [if_neg (by decide : ¬ ("PGDN" : String) = "UP")]
    rw [if_neg (by decide : ¬ ("PGDN" : String) = "DOWN")]
    rw [if_neg (by decide : ¬ ("PGDN" : String) = "HOME")]
    rw [if_neg (by decide : ¬ ("PGDN" : String) = "END")]
    rw [if_pos (Or.inr True.intro : ("PGDN" : String) = "PGUP" ∨ True)]
    simp only [pageKey, hvr, optTruthy, htr, hb, if_true]
    simp
  · intro hb
    simp only [dispatch]
    rw [if_neg (by decide : ¬ ("PGUP" : String) = "UP")]
    rw [if_neg (by decide : ¬ ("PGUP" : String) = "DOWN")]
    rw [if_neg (by decide : ¬ ("PGUP" : String) = "HOME")]
    rw [if_neg (by decide : ¬ ("PGUP" : String) = "END")]
    rw [if_pos (Or.inl True.intro : True ∨ ("PGUP" : String) = "PGDN")]
    simp only [pageKey, hvr, optTruthy, htr, hb, if_true]
    rw [if_neg (by decide : ¬ ("PGUP" : String) = "PGDN")]
    simp
  · intro r2 hne hsm hgvr
    have hspec := gvr_forward_spec (heightsOf st.items) cfg.item_margin st.usable_height
      (min st.scroll_max (r.last + 1)) (by omega) r2 hgvr
    have htr2 : r2.isTruthy = true := isTruthy_of_le r2 (by omega)
    refine ⟨?_, hspec.1⟩
    have hguard : ¬ (min st.scroll_max (r.last + 1) < 0 ∨
        st.scroll_max < min st.scroll_max (r.last + 1)) := by omega
    simp only [dispatch]
    rw [if_neg (by decide : ¬ ("PGDN" : String) = "UP")]
    rw [if_neg (by decide : ¬ ("PGDN" : String) = "DOWN")]
    rw [if_neg (by decide : ¬ ("PGDN" : String) = "HOME")]
    rw [if_neg (by decide : ¬ ("PGDN" : String) = "END")]
    rw [if_pos (Or.inr True.intro : ("PGDN" : String) = "PGUP" ∨ True)]
    simp only [pageKey, hvr, optTruthy, htr, if_true]
    rw [if_neg hne]
    simp only [pageMove, scroll_to, hgvr, optTruthy, htr2, if_true]
    rw [if_neg hguard]
    simp
    intro hcon
    simp [htr2] at hcon
  · intro nvr r2 hne hsm hgb hgf
    have hf1 : (1 : Int) ≤ r.first := by omega
    have hbspec := gvr_backward_spec (heightsOf st.items) cfg.item_margin st.usable_height
      (r.first - 1) (by omega) nvr hgb
    have htrn : nvr.isTruthy = true := isTruthy_of_le nvr (by omega)
    have hspec := gvr_forward_spec (heightsOf st.items) cfg.item_margin st.usable_height
      nvr.first (by omega) r2 hgf
    have htr2 : r2.isTruthy = true := isTruthy_of_le r2 (by omega)
    refine ⟨?_, hspec.1⟩
    have hguard : ¬ (nvr.first < 0 ∨ st.scroll_max < nvr.first) := by omega
    simp only [dispatch]
    rw [if_neg (by decide : ¬ ("PGUP" : String) = "UP")]
    rw [if_neg (by decide : ¬ ("PGUP" : String) = "DOWN")]
    rw [if_neg (by decide : ¬ ("PGUP" : String) = "HOME")]
    rw [if_neg (by decide : ¬ ("PGUP" : String) = "END")]
    rw [if_pos (Or.inl True.intro : True ∨ ("PGUP" : String) = "PGDN")]
    simp only [pageKey, hvr, optTruthy, htr, if_true]
    rw [if_neg (by decide : ¬ ("PGUP" : String) = "PGDN")]
    rw [if_neg hne]
    simp only [hgb, htrn, if_true]
    simp only [pageMove, scroll_to, hgf, optTruthy, htr2, if_true]
    rw [if_neg hguard]
    simp
    intro hcon
    simp [htr2] at hcon

theorem spec_C9_witness :
    ((pageSt.visible_range = Option.some { first := 0, last := 4, height := 5 } ∧
        _ItemRange.first { first := 0, last := 4, height := 5 } ≠ pageSt.scroll_max ∧
        (0 : Int) ≤ pageSt.scroll_max ∧
        get_visible_range (heightsOf pageSt.items) pageCfg.item_margin pageSt.usable_height
            (min pageSt.scroll_max (_ItemRange.last { first := 0, last := 4, height := 5 } + 1))
            false = Option.some { first := 5, last := 9, height := 5 }) ∧
      (dispatch pageCfg pageSt (SessKey.str "PGDN") [] =
        IterResult.next
          (withVrCp pageSt (Option.some { first := 5, last := 9, height := 5 })
            (_ItemRange.first { first := 5, last := 9, height := 5 } +
              ratioMulTrunc
                (selection_ratio pageSt.current_position
                  (_ItemRange.first { first := 0, last := 4, height := 5 })
                  (_ItemRange.last { first := 0, last := 4, height := 5 }))
                (_ItemRange.last { first := 5, last := 9, height := 5 } -
                  _ItemRange.first { first := 5, last := 9, height := 5 }))) [] ∧
        _ItemRange.first { first := 5, last := 9, height := 5 } =
          min pageSt.scroll_max (_ItemRange.last { first := 0, last := 4, height := 5 } + 1))) := by
  constructor
  · exact ⟨by decide, by decide, by decide, by decide⟩
  · exact (spec_C9 pageCfg pageSt { first := 0, last := 4, height := 5 } [] (by decide) (by decide)
      (by decide)).2.2.1 { first := 5, last := 9, height := 5 } (by decide) (by decide) (by decide)

/-- C6: the scan primitive.  For any heights, margin, usable height and valid
start position p, the scan (in either direction) returns none exactly when
the height of item p alone exceeds the usable height; otherwise the returned
range is anchored at p in the scan direction, its height is the exact
occupied-rows sum of its members (one margin per item after the first), and
it does not exceed the usable height; consequently a successful scroll_to(p)
yields a window containing p whose height fits. -/
theorem spec_C6 (heights : List Int) (m usable p : Int) (hp : 0 ≤ p)
    (hlt : p < (heights.length : Int)) :
    (get_visible_range heights m usable p false = Option.none ↔ usable < pyIndex heights p) ∧
    (get_visible_range heights m usable p true = Option.none ↔ usable < pyIndex heights p) ∧
    (∀ r : _ItemRange, get_visible_range heights m usable p false = Option.some r →
      r.first = p ∧ p ≤ r.last ∧ r.height = rangeHeight heights m p r.last ∧
        r.height ≤ usable) ∧
    (∀ r : _ItemRange, get_visible_range heights m usable p true = Option.some r →
      r.last = p ∧ r.first ≤ p ∧ r.height = rangeHeight heights m r.first p ∧
        r.height ≤ usable) ∧
    (∀ (sm : Int) (keys : List SessKey) (r2 : _ItemRange) (keys2 : List SessKey),
      scroll_to heights m usable sm p keys = SubResult.ok (Option.some r2) keys2 →
      r2.first ≤ p ∧ p ≤ r2.last ∧ r2.height ≤ usable) := by
  refine ⟨gvr_forward_none heights m usable p hp hlt, gvr_backward_none heights m usable p hp,
    ?_, ?_, ?_⟩
  · intro r h
    have hs := gvr_forward_spec heights m usable p hp r h
    exact ⟨hs.1, hs.2.1, hs.2.2.2.1, hs.2.2.2.2⟩
  · intro r h
    have hs := gvr_backward_spec heights m usable p hp r h
    exact ⟨hs.1, hs.2.1, hs.2.2.2.1, hs.2.2.2.2⟩
  · intro sm keys r2 keys2 h
    have hs := scroll_to_spec heights m usable sm p keys r2 keys2 h
    exact ⟨by omega, hs.2.1, hs.2.2.2.2.1⟩

theorem spec_C6_witness :
    (((0 : Int) ≤ 0) ∧ ((0 : Int) < (([2, 1] : List Int).length : Int))) ∧
    (get_visible_range [2, 1] 0 3 0 false = Option.none ↔ (3 : Int) < pyIndex [2, 1] 0) :=
  ⟨⟨by decide, by decide⟩, (spec_C6 [2, 1] 0 3 0 (by decide) (by decide)).1⟩

/-- C2 (amended): the window invariants under the scroll operations.  A
successful scroll_to (and every range produced by the scan during the resize
recomputation) satisfies first ≤ last, its height is the exact occupied-rows
sum, and height ≤ usable_height.  scroll_up and scroll_down, applied to a
well-formed window, always produce a range whose height is the exact
occupied-rows sum of its members, and whenever that range is nonempty
(first ≤ last) its height fits within usable_height; in the degenerate
viewport-too-small case they instead record an empty flagged range with
first = last + 1, which falsifies the unamended first ≤ last claim. -/
theorem spec_C2 (heights : List Int) (m usable sm : Int) (r : _ItemRange) (keys : List SessKey)
    (hfl : r.first ≤ r.last) (hh : r.height = rangeHeight heights m r.first r.last) :
    (∀ (r2 : _ItemRange) (vr : Option _ItemRange) (keys2 : List SessKey),
      scroll_up heights m usable sm r keys = SubResult.ok vr keys2 → vr = Option.some r2 →
      r2.height = rangeHeight heights m r2.first r2.last ∧
        (r2.first ≤ r2.last → r2.height ≤ usable)) ∧
    (∀ (r2 : _ItemRange) (vr : Option _ItemRange) (keys2 : List SessKey),
      scroll_down heights m usable sm r keys = SubResult.ok vr keys2 → vr = Option.some r2 →
      r2.height = rangeHeight heights m r2.first r2.last ∧
        (r2.first ≤ r2.last → r2.height ≤ usable)) ∧
    (∀ (p : Int) (r2 : _ItemRange) (keys2 : List SessKey),
      scroll_to heights m usable sm p keys = SubResult.ok (Option.some r2) keys2 →
      r2.first ≤ r2.last ∧ r2.height ≤ usable ∧
        r2.height = rangeHeight heights m r2.first r2.last) := by
  refine ⟨scroll_up_spec heights m usable sm r keys hfl hh,
    scroll_down_spec heights m usable sm r keys hfl hh, ?_⟩
  intro p r2 keys2 h
  have hs := scroll_to_spec heights m usable sm p keys r2 keys2 h
  refine ⟨by omega, hs.2.2.2.2.1, ?_⟩
  rw [hs.1]
  exact hs.2.2.2.1

/-- Apply one further pass of the loop body to an iteration result. -/
def iterNext (cfg : Config) : IterResult → IterResult
  | IterResult.next st keys => loopIter cfg st keys
  | IterResult.done o => IterResult.done o

/-- The visible range recorded in a continuing iteration result. -/
def vrOfIter : IterResult → Option (Option _ItemRange)
  | IterResult.next st _ => Option.some st.visible_range
  | IterResult.done _ => Option.none

/-- A ten-line label, giving its item height 10. -/
def tallLabel : String := "b\nb\nb\nb\nb\nb\nb\nb\nb\nb"

/-- The session of the C2 counterexample: items of heights 1, 10 and 1,
margin 0, terminal 100 by 6 (usable height 1 under the two header lines). -/
def degCfg : Config :=
  { realW := 100
    realH := 6
    header_lines := headerLinesOf "h"
    item_margin := 0
    truncate_lines := true }

def degStart : LoopState :=
  initState (assignTags
    [{ label := "a", checked := false, tag := PyVal.none },
     { label := tallLabel, checked := false, tag := PyVal.none },
     { label := "c", checked := false, tag := PyVal.none }])

def degKeys : List SessKey := [SessKey.str "UP", SessKey.str "UP", SessKey.str "x"]

theorem spec_C2_counterexample :
    vrOfIter (iterNext degCfg (loopIter degCfg degStart degKeys)) =
      Option.some (Option.some { first := 1, last := 0, height := 0 }) ∧
    ¬ (_ItemRange.first { first := 1, last := 0, height := 0 } ≤
        _ItemRange.last { first := 1, last := 0, height := 0 }) ∧
    scroll_up (heightsOf degStart.items) 0 1 2 { first := 2, last := 2, height := 1 }
        [SessKey.str "x"] =
      SubResult.ok (Option.some { first := 1, last := 0, height := 0 }) [] := by
  exact ⟨by decide, by decide, by decide⟩

theorem spec_C2_witness :
    ((_ItemRange.first { first := 1, last := 1, height := 1 } ≤
        _ItemRange.last { first := 1, last := 1, height := 1 } ∧
      _ItemRange.height { first := 1, last := 1, height := 1 } =
        rangeHeight [1, 1] 0 1 1) ∧
      (_ItemRange.height { first := 0, last := 1, height := 2 } =
          rangeHeight [1, 1] 0 0 1 ∧
        (_ItemRange.first { first := 0, last := 1, height := 2 } ≤
            _ItemRange.last { first := 0, last := 1, height := 2 } →
          _ItemRange.height { first := 0, last := 1, height := 2 } ≤ 2))) := by
  constructor
  · exact ⟨by decide, by decide⟩
  · exact (spec_C2 [1, 1] 0 2 1 { first := 1, last := 1, height := 1 } [] (by decide)
      (by decide)).1 { first := 0, last := 1, height := 2 }
      (Option.some { first := 0, last := 1, height := 2 }) [] (by decide) rfl

/-- C1: the decoded page keys.  The Unix decoder maps the VT sequences ESC [
5 ~ and ESC [ 6 ~ to the names PAGE_UP and PAGE_DOWN, while the Windows
decoder maps its page scan codes to PGUP and PGDN; the event-loop dispatch
recognizes only PGUP and PGDN, so the events decoded on Unix fall through to
the catch-all branch and leave the session state entirely unchanged. -/
theorem spec_C1 :
    unix_get_key ['\x1b', '[', '5', '~'] = Option.some (UnixKey.str "PAGE_UP", []) ∧
    unix_get_key ['\x1b', '[', '6', '~'] = Option.some (UnixKey.str "PAGE_DOWN", []) ∧
    win_get_key [224, 73] = Option.some (WinKey.str "PGUP", []) ∧
    win_get_key [224, 81] = Option.some (WinKey.str "PGDN", []) ∧
    (∀ (cfg : Config) (st : LoopState) (keys : List SessKey),
      dispatch cfg st (SessKey.str "PAGE_UP") keys = IterResult.next st keys) ∧
    (∀ (cfg : Config) (st : LoopState) (keys : List SessKey),
      dispatch cfg st (SessKey.str "PAGE_DOWN") keys = IterResult.next st keys) := by
  refine ⟨by decide, by decide, by decide, by decide, ?_, ?_⟩
  · intro cfg st keys
    simp only [dispatch]
    rw [if_neg (by decide : ¬ ("PAGE_UP" : String) = "UP")]
    rw [if_neg (by decide : ¬ ("PAGE_UP" : String) = "DOWN")]
    rw [if_neg (by decide : ¬ ("PAGE_UP" : String) = "HOME")]
    rw [if_neg (by decide : ¬ ("PAGE_UP" : String) = "END")]
    rw [if_neg (by decide : ¬ (("PAGE_UP" : String) = "PGUP" ∨ ("PAGE_UP" : String) = "PGDN"))]
    rw [if_neg (by decide : ¬ ("PAGE_UP" : String) = "SPACE")]
    rw [if_neg (by decide : ¬ ("PAGE_UP" : String) = "ENTER")]
    rw [if_neg (by decide : ¬ ("PAGE_UP" : String) = "ESCAPE")]
  · intro cfg st keys
    simp only [dispatch]
    rw [if_neg (by decide : ¬ ("PAGE_DOWN" : String) = "UP")]
    rw [if_neg (by decide : ¬ ("PAGE_DOWN" : String) = "DOWN")]
    rw [if_neg (by decide : ¬ ("PAGE_DOWN" : String) = "HOME")]
    rw [if_neg (by decide : ¬ ("PAGE_DOWN" : String) = "END")]
    rw [if_neg (by decide : ¬ (("PAGE_DOWN" : String) = "PGUP" ∨ ("PAGE_DOWN" : String) = "PGDN"))]
    rw [if_neg (by decide : ¬ ("PAGE_DOWN" : String) = "SPACE")]
    rw [if_neg (by decide : ¬ ("PAGE_DOWN" : String) = "ENTER")]
    rw [if_neg (by decide : ¬ ("PAGE_DOWN" : String) = "ESCAPE")]

/-- C3: plain-unit decoding.  On Windows the normal table behaves as
specified, including a lone escape byte decoding to ESCAPE.  On Unix, space
and carriage return follow the table and other plain characters pass through
literally, but an escape character never decodes to ESCAPE: the decoder
always enters the escape-sequence branch, consuming the following unit, and
an unrecognized follow-up yields the unknown event (Python None) even though
the normal table carries an (unreachable) escape-to-ESCAPE entry. -/
theorem spec_C3 :
    win_get_key [32] = Option.some (WinKey.str "SPACE", []) ∧
    win_get_key [13] = Option.some (WinKey.str "ENTER", []) ∧
    win_get_key [27] = Option.some (WinKey.str "ESCAPE", []) ∧
    win_get_key [97] = Option.some (WinKey.bytes [97], []) ∧
    unix_get_key [' '] = Option.some (UnixKey.str "SPACE", []) ∧
    unix_get_key ['\r'] = Option.some (UnixKey.str "ENTER", []) ∧
    unix_get_key ['a'] = Option.some (UnixKey.str "a", []) ∧
    UNIX_NORMAL_MAPPING.lookup '\x1b' = Option.some "ESCAPE" ∧
    unix_get_key ['\x1b', 'x'] = Option.some (UnixKey.unknownSeq, []) ∧
    unix_get_key ['\x1b'] = Option.none := by
  exact ⟨by decide, by decide, by decide, by decide, by decide, by decide, by decide, by decide,
    by decide, by decide⟩

/-- C4: the header default is broken.  Calling tui_checklist with the header
omitted (None) enters app mode and then crashes with AttributeError when
header.split is evaluated on None, instead of running the session. -/
theorem spec_C4 :
    tui_checklist [RawItem.str "A"] Option.none 0 false 80 24
        [SessKey.str "ENTER"] 5 =
      { enteredAppMode := true, outcome := Outcome.crashed "AttributeError" } ∧
    tui_checklist [RawItem.str "A"] (Option.some "h") 0 true 80 24
        [SessKey.str "ENTER"] 5 =
      { enteredAppMode := true, outcome := Outcome.confirmed [] } := by
  exact ⟨by decide, by decide⟩

/-- The three-item session of the section-8 end-to-end scenario. -/
def e2eItems : List RawItem := [RawItem.str "A", RawItem.str "B", RawItem.str "C"]

/-- C5: session results.  With items A, B, C, margin 0 and a tall terminal,
the key sequence DOWN, DOWN, SPACE, ENTER confirms with the ordered tag list
[2] (the index tag of the checked third item); pressing ESCAPE at any point
of that sequence, or the interrupt, cancels with no list regardless of prior
toggles. -/
theorem spec_C5 :
    tui_checklist e2eItems (Option.some "h") 0 true 80 20
        [SessKey.str "DOWN", SessKey.str "DOWN", SessKey.str "SPACE", SessKey.str "ENTER"] 10 =
      { enteredAppMode := true, outcome := Outcome.confirmed [PyVal.int 2] } ∧
    tui_checklist e2eItems (Option.some "h") 0 true 80 20 [SessKey.str "ESCAPE"] 10 =
      { enteredAppMode := true, outcome := Outcome.cancelled } ∧
    tui_checklist e2eItems (Option.some "h") 0 true 80 20
        [SessKey.str "DOWN", SessKey.str "ESCAPE"] 10 =
      { enteredAppMode := true, outcome := Outcome.cancelled } ∧
    tui_checklist e2eItems (Option.some "h") 0 true 80 20
        [SessKey.str "DOWN", SessKey.str "DOWN", SessKey.str "ESCAPE"] 10 =
      { enteredAppMode := true, outcome := Outcome.cancelled } ∧
    tui_checklist e2eItems (Option.some "h") 0 true 80 20
        [SessKey.str "DOWN", SessKey.str "DOWN", SessKey.str "SPACE", SessKey.str "ESCAPE"] 10 =
      { enteredAppMode := true, outcome := Outcome.cancelled } ∧
    tui_checklist e2eItems (Option.some "h") 0 true 80 20
        [SessKey.str "DOWN", SessKey.str "DOWN", SessKey.str "SPACE", SessKey.ctrlC] 10 =
      { enteredAppMode := true, outcome := Outcome.cancelled } := by
  exact ⟨by decide, by decide, by decide, by decide, by decide, by decide⟩

/-- Whether a PyVal is a Python bool (the isinstance check of the source). -/
def PyVal.isBool : PyVal → Bool
  | PyVal.bool _ => true
  | _ => false

/-- The item-specification shapes accepted by the source: a ChecklistItem, a
bare string, a pair whose first element is a string (bool second gives
checked, anything else the tag), or a triple of string, bool and tag. -/
def recognizedShape : RawItem → Bool
  | RawItem.item _ => true
  | RawItem.str _ => true
  | RawItem.tuple [PyVal.str _, _] => true
  | RawItem.tuple [PyVal.str _, PyVal.bool _, _] => true
  | _ => false

/-- C7: normalization.  An Item passes through unchanged; a bare string gives
an unchecked, untagged item; a (label, checked) pair, a (label, tag) pair and
a (label, checked, tag) triple are disambiguated by whether the second
element is a bool; normalization fails exactly on the inputs matching none of
those shapes; and a failing specification surfaces before the terminal is
switched to app mode. -/
theorem spec_C7 :
    (∀ it, _make_checklist_item (RawItem.item it) = Except.ok it) ∧
    (∀ s, _make_checklist_item (RawItem.str s) =
      Except.ok { label := s, checked := false, tag := PyVal.none }) ∧
    (∀ l b, _make_checklist_item (RawItem.tuple [PyVal.str l, PyVal.bool b]) =
      Except.ok { label := l, checked := b, tag := PyVal.none }) ∧
    (∀ l t, PyVal.isBool t = false →
      _make_checklist_item (RawItem.tuple [PyVal.str l, t]) =
        Except.ok { label := l, checked := false, tag := t }) ∧
    (∀ l b t, _make_checklist_item (RawItem.tuple [PyVal.str l, PyVal.bool b, t]) =
      Except.ok { label := l, checked := b, tag := t }) ∧
    (∀ raw, (∃ e, _make_checklist_item raw = Except.error e) ↔ recognizedShape raw = false) ∧
    (∀ raws header m t W H keys fuel e, normalizeAll raws = Except.error e →
      tui_checklist raws header m t W H keys fuel =
        { enteredAppMode := false, outcome := Outcome.crashed "TypeError" }) := by
  refine ⟨fun it => rfl, fun s => rfl, fun l b => rfl, ?_, fun l b t => rfl, ?_, ?_⟩
  · intro l t ht
    cases t with
    | bool b => simp [PyVal.isBool] at ht
    | none => rfl
    | int n => rfl
    | str s => rfl
  · intro raw
    rcases raw with it | s | elems | _
    · simp [_make_checklist_item, recognizedShape]
    · simp [_make_checklist_item, recognizedShape]
    · rcases elems with _ | ⟨e0, elems⟩
      · simp [_make_checklist_item, recognizedShape]
      · rcases elems with _ | ⟨e1, elems⟩
        · rcases e0 <;> simp [_make_checklist_item, recognizedShape]
        · rcases elems with _ | ⟨e2, elems⟩
          · rcases e0 <;> rcases e1 <;> simp [_make_checklist_item, recognizedShape]
          · rcases elems with _ | ⟨e3, elems⟩
            · rcases e0 <;> rcases e1 <;> simp [_make_checklist_item, recognizedShape]
            · rcases e0 <;> rcases e1 <;> simp [_make_checklist_item, recognizedShape]
    · simp [_make_checklist_item, recognizedShape]
  · intro raws header m t W H keys fuel e h
    simp [tui_checklist, h]

theorem spec_C7_witness :
    ((PyVal.isBool (PyVal.str "sku-1") = false) ∧
      _make_checklist_item (RawItem.tuple [PyVal.str "Buy milk", PyVal.str "sku-1"]) =
        Except.ok { label := "Buy milk", checked := false, tag := PyVal.str "sku-1" }) ∧
    ((normalizeAll [RawItem.other] = Except.error "TypeError") ∧
      tui_checklist [RawItem.other] (Option.some "h") 0 false 80 24 [] 5 =
        { enteredAppMode := false, outcome := Outcome.crashed "TypeError" }) := by
  constructor
  · exact ⟨by decide, (spec_C7.2.2.2.1) "Buy milk" (PyVal.str "sku-1") (by decide)⟩
  · exact ⟨rfl, (spec_C7.2.2.2.2.2.2) [RawItem.other] (Option.some "h") 0 false 80 24 [] 5
      "TypeError" rfl⟩

theorem gvr_backward_neg_one (heights : List Int) (m usable : Int) :
    get_visible_range heights m usable (-1) true = Option.none := by
  unfold get_visible_range
  simp [intRangeDesc, intRangeDescAux, gvrLoop]

theorem gvr_empty_forward (m usable p : Int) (hp : 0 ≤ p) :
    get_visible_range [] m usable p false = Option.none := by
  unfold get_visible_range
  have h1 : (-p).toNat = 0 := by omega
  simp [intRange, h1, intRangeAux, gvrLoop]

theorem mainLoop_empty_not_confirmed (cfg : Config) :
    ∀ (fuel : Nat) (st : LoopState) (keys : List SessKey),
    st.items = [] → st.visible_range = Option.none → st.current_position = 0 →
    st.scroll_max = 0 → ∀ tags, mainLoop cfg fuel st keys ≠ Outcome.confirmed tags := by
  intro fuel
  induction fuel with
  | zero =>
    intro st keys _ _ _ _ tags
    simp [mainLoop]
  | succ n ih =>
    intro st keys hitems hvr hcp hsm tags
    rw [mainLoop]
    by_cases hdim : st.terminal_width ≠ cfg.realW ∨ st.terminal_height ≠ cfg.realH
    · rw [loopIter, if_pos hdim]
      by_cases htr : cfg.truncate_lines = true
      · rw [if_pos htr]
        rw [resizeCont]
        simp only [hitems]
        rw [(by simp : ((([] : List ChecklistItem).length : Nat) : Int) - 1 = -1)]
        rw [gvr_backward_neg_one]
        rcases hre : render_error keys with k2 | _ | _ <;> simp only []
        · apply ih
          · rfl
          · exact hvr
          · exact hcp
          · exact hsm
        · simp
        · simp
      · rw [if_neg htr]
        simp only [hitems]
        simp
    · rw [loopIter, if_neg hdim]
      rw [afterResize]
      have hns : needScroll st.visible_range st.current_position = true := by
        rw [hvr]; rfl
      rw [if_pos hns]
      rw [scroll_to]
      simp only [hitems, hcp, hsm]
      rw [if_neg (by omega : ¬ ((0 : Int) < 0 ∨ (0 : Int) < 0))]
      have hg : get_visible_range (heightsOf []) cfg.item_margin st.usable_height 0 false
          = Option.none := gvr_empty_forward cfg.item_margin st.usable_height 0 (by omega)
      rw [hg]
      simp only [optTruthy, Bool.false_eq_true, if_false]
      rcases hre : render_error keys with k2 | _ | _ <;> simp only []
      · simp only [step3, optTruthy]
        rw [if_pos (by simp)]
        rw [errContinue]
        rcases hre2 : render_error k2 with k3 | _ | _ <;> simp only []
        · apply ih
          · rfl
          · rfl
          · rfl
          · rfl
        · simp
        · simp
      · simp
      · simp

/-- C10: an empty item list never yields a confirmed tag list.  The backward
scan that computes scroll_max starts from index -1 and always fails; with
truncation disabled the first measuring pass crashes with ValueError on the
width maximum over zero items; with truncation enabled every pass re-enters
the too-small prompt, so the session can only cancel, crash or block. -/
theorem spec_C10 (h : String) (m W H : Int) (keys : List SessKey) (fuel : Nat)
    (hdim : W ≠ 0 ∨ H ≠ 0) (hfuel : 1 ≤ fuel) :
    (∀ m2 usable : Int, get_visible_range [] m2 usable (-1) true = Option.none) ∧
    tui_checklist [] (Option.some h) m false W H keys fuel =
      { enteredAppMode := true, outcome := Outcome.crashed "ValueError" } ∧
    (∀ tags, (tui_checklist [] (Option.some h) m true W H keys fuel).outcome ≠
      Outcome.confirmed tags) := by
  refine ⟨fun m2 usable => gvr_backward_neg_one [] m2 usable, ?_, ?_⟩
  · obtain ⟨n, rfl⟩ : ∃ n, fuel = n + 1 := ⟨fuel - 1, by omega⟩
    simp only [tui_checklist, normalizeAll, assignTags, List.enum, mainLoop]
    rw [loopIter]
    rw [if_pos (by
      simp only [initState]
      omega)]
    rfl
  · intro tags hcon
    exact mainLoop_empty_not_confirmed
      { realW := W, realH := H, header_lines := headerLinesOf h, item_margin := m,
        truncate_lines := true }
      fuel (initState (assignTags [])) keys rfl rfl rfl rfl tags hcon

theorem spec_C10_witness :
    ((((80 : Int) ≠ 0 ∨ (24 : Int) ≠ 0) ∧ 1 ≤ 1) ∧
      (tui_checklist [] (Option.some "h") 0 false 80 24 [] 1 =
        { enteredAppMode := true, outcome := Outcome.crashed "ValueError" } ∧
      (tui_checklist [] (Option.some "h") 0 true 80 24 [] 1).outcome ≠
        Outcome.confirmed [])) := by
  constructor
  · exact ⟨Or.inl (by decide), by decide⟩
  · exact ⟨(spec_C10 "h" 0 80 24 [] 1 (Or.inl (by decide)) (by decide)).2.1,
      (spec_C10 "h" 0 80 24 [] 1 (Or.inl (by decide)) (by decide)).2.2 []⟩

/-- The cursor placement the original claim describes, in exact integer
arithmetic (following the claim's words rather than the source): new_first
plus the old ratio (cursor - first) / (last - first) applied to the new
window's span, rounded toward the window start.  All operands are
nonnegative at every use, so the Lean integer division here is that floor. -/
def exactRatioCursor (cp first last newFirst newLast : Int) : Int :=
  newFirst + (cp - first) * (newLast - newFirst) / (last - first)

/-- A hundred-item page-scroll state with a 50-row item area: window 0..49
(span 49), cursor at offset 1, scroll_max 50. -/
def f49Items : List ChecklistItem :=
  List.replicate 100 { label := "a", checked := false, tag := PyVal.none }

def f49Cfg : Config :=
  { realW := 80
    realH := 55
    header_lines := ["h", instructionsLine]
    item_margin := 0
    truncate_lines := true }

def f49St : LoopState :=
  { terminal_width := 80
    terminal_height := 55
    usable_height := 50
    visible_range := Option.some { first := 0, last := 49, height := 50 }
    scroll_max := 50
    current_position := 1
    items := f49Items }

set_option maxRecDepth 8000 in
theorem spec_C9_counterexample :
    dispatch f49Cfg f49St (SessKey.str "PGDN") [] =
      IterResult.next
        (withVrCp f49St (Option.some { first := 50, last := 99, height := 50 }) 50) [] ∧
    ratioMulTrunc (selection_ratio 1 0 49) 49 = 0 ∧
    exactRatioCursor 1 0 49 50 99 = 51 ∧
    (50 : Int) ≠ 51 := by
  exact ⟨by decide, by decide, by decide, by decide⟩
